import Mathlib

/-!
Verification development for the Jiraibrary catalog facet/search core.

This file shallowly embeds the dynamic catalog query and facet builder of
the Django backend — `ItemFilter` from `src/backend/catalog/filters.py`
and `ItemViewSet.list` / `_extract_selected_filters` /
`_build_filters_payload` / `_build_active_filters` from
`src/backend/catalog/views.py` — and proves or refutes the specification
claims about it.

Modelling conventions:
* Database rows become Lean structures; the database becomes a `Catalog`
  record of lists of rows.  Querysets become list filters; `.count()`
  becomes `List.length`; `.distinct()` is the identity because the model
  filters whole rows and never multiplies them through joins.
* Django `Decimal` / `float` amounts become `Rat`.  The numeric string
  parsers model CPython's `int()` / `float()` / `Decimal()` on ordinary
  decimal and scientific notation; exotic inputs (underscore separators,
  unicode digits, `inf` / `nan`) are out of the modelled fragment and no
  claim below depends on them.
* A query string becomes a `QueryParams` record holding, per parameter
  name, the list of repeated raw values (what Django's
  `QueryDict.getlist` returns); `QueryDict.get`/`__getitem__` is the last
  element of that list.
* django-filter's declared typed fields (`UUIDInFilter`, `NumberFilter`,
  `MultipleChoiceFilter`) are validated by the DRF `DjangoFilterBackend`
  before filtering; an invalid value makes the filterset form invalid and
  the backend raise an HTTP 400.  That validation layer is embedded in
  `validateItemFilter` / `listEndpoint` below.
-/

namespace Jiraibrary

/-- Numeric value of a list of decimal digit characters (most significant
first), as used after an all-digits check. -/
def digitsVal (cs : List Char) : Nat :=
  cs.foldl (fun acc c => acc * 10 + (c.toNat - 48)) 0

/-- Strip leading and trailing whitespace, as Python's numeric
constructors do before parsing. -/
def stripWS (cs : List Char) : List Char :=
  ((cs.dropWhile Char.isWhitespace).reverse.dropWhile Char.isWhitespace).reverse

/-- Model of Python `int(s)` on a character list: optional sign followed by
one or more decimal digits (after whitespace stripping); anything else
raises `ValueError`, modelled as `none`. -/
def pyParseIntChars (cs : List Char) : Option Int :=
  match stripWS cs with
  | [] => none
  | '+' :: rest =>
      if !rest.isEmpty && rest.all Char.isDigit then some (digitsVal rest) else none
  | '-' :: rest =>
      if !rest.isEmpty && rest.all Char.isDigit then some (-(digitsVal rest : Int)) else none
  | other =>
      if other.all Char.isDigit then some (digitsVal other) else none

/-- Model of Python `int(s)` for strings. -/
def pyParseInt (s : String) : Option Int :=
  pyParseIntChars s.data

/-- Split a character list on every occurrence of `sep`, Python
`str.split(sep)` style: the result is always non-empty and splitting the
empty list yields `[[]]`. -/
def splitChar (sep : Char) : List Char → List (List Char)
  | [] => [[]]
  | c :: cs =>
    let r := splitChar sep cs
    if c == sep then [] :: r
    else
      match r with
      | [] => [[c]]
      | p :: ps => (c :: p) :: ps

/-- Python `str.partition(sep)` for a one-character separator: the part
before the first occurrence, whether the separator occurred, and the part
after it. -/
def partitionChar (sep : Char) : List Char → List Char × Bool × List Char
  | [] => ([], false, [])
  | c :: cs =>
    if c == sep then ([], true, cs)
    else
      (c :: (partitionChar sep cs).1, (partitionChar sep cs).2.1, (partitionChar sep cs).2.2)

/-- Mantissa of a decimal literal: digits with at most one point, at least
one digit overall.  Returns the value as a rational. -/
def parseMantissa (cs : List Char) : Option Rat :=
  match splitChar '.' cs with
  | [ip] =>
      if !ip.isEmpty && ip.all Char.isDigit then some ((digitsVal ip : Int) : Rat) else none
  | [ip, fp] =>
      if (!ip.isEmpty || !fp.isEmpty) && ip.all Char.isDigit && fp.all Char.isDigit then
        some (((digitsVal (ip ++ fp) : Int) : Rat) / ((10 : Rat) ^ fp.length))
      else none
  | _ => none

/-- Optional exponent suffix: signed decimal integer. -/
def parseExponent (cs : List Char) : Option Int :=
  pyParseIntChars cs

/-- Model of the common numeric-literal fragment of Python `float(s)` and
`decimal.Decimal(s)`: optional sign, decimal mantissa, optional
`e`/`E`-exponent.  Both `ItemFilter._parse_decimal` (a `try/except` around
`Decimal`) and the views' `parse_float` (a `try/except` around `float`)
are modelled with this parser returning `none` on failure. -/
def pyParseNumberChars (cs : List Char) : Option Rat :=
  let body := stripWS cs
  let (sign, body) :=
    match body with
    | '+' :: rest => ((1 : Rat), rest)
    | '-' :: rest => ((-1 : Rat), rest)
    | other => ((1 : Rat), other)
  let body := body.map (fun c => if c == 'E' then 'e' else c)
  match splitChar 'e' body with
  | [m] => (parseMantissa m).map (sign * ·)
  | [m, ex] =>
      match parseMantissa m, parseExponent ex with
      | some mv, some ev =>
          if 0 ≤ ev then some (sign * mv * (10 : Rat) ^ ev.toNat)
          else some (sign * mv / (10 : Rat) ^ (-ev).toNat)
      | _, _ => none
  | _ => none

/-- Model of the views' `parse_float` helper (`float(s)` or `None`). -/
def pyParseFloat (s : String) : Option Rat :=
  pyParseNumberChars s.data

/-- Model of `ItemFilter._parse_decimal` (`Decimal(s)` or `None`); `""`
and `None` short-circuit to `None` through `if not value`. -/
def pyParseDecimal (s : String) : Option Rat :=
  pyParseNumberChars s.data

/-- Hexadecimal digit check for UUID validation. -/
def isHexChar (c : Char) : Bool :=
  c.isDigit || ('a' ≤ c && c ≤ 'f') || ('A' ≤ c && c ≤ 'F')

/-- Model of `uuid.UUID(s)` (as used by the `UUIDInFilter` fields and form
validation): hyphens are ignored, the remaining characters must be exactly
32 hexadecimal digits, and the canonical hyphenated lowercase form is
produced (it equals `str(uuid.UUID(s))`).  Rare `urn:uuid:`/brace forms
are outside the modelled fragment; no claim depends on them. -/
def canonicalizeUUIDChars (cs : List Char) : Option (List Char) :=
  let h := cs.filter (fun c => c != '-')
  if h.length == 32 && h.all isHexChar then
    let l := h.map Char.toLower
    some (l.take 8 ++ '-' :: ((l.drop 8).take 4 ++ '-' ::
      (((l.drop 12).take 4) ++ '-' :: (((l.drop 16).take 4) ++ '-' :: l.drop 20))))
  else none

/-- String form of `canonicalizeUUIDChars`. -/
def canonicalizeUUID (s : String) : Option String :=
  (canonicalizeUUIDChars s.data).map String.mk

/-- Does `hay` start with `needle`? -/
def startsWithChars : List Char → List Char → Bool
  | [], _ => true
  | _ :: _, [] => false
  | a :: as, b :: bs => a == b && startsWithChars as bs

/-- Substring test over character lists (used for `icontains`). -/
def containsSub (needle hay : List Char) : Bool :=
  match hay with
  | [] => needle.isEmpty
  | _ :: t => startsWithChars needle hay || containsSub needle t

/-- Model of the ORM `icontains` lookup: ASCII-case-insensitive substring
test. -/
def icontains (hay needle : String) : Bool :=
  containsSub (needle.data.map Char.toLower) (hay.data.map Char.toLower)

/-- Python `str.title()` over characters: the flag records whether the
previous character was alphabetic. -/
def pyTitleChars : Bool → List Char → List Char
  | _, [] => []
  | prevAlpha, c :: cs =>
    let c' := if c.isAlpha then (if prevAlpha then c.toLower else c.toUpper) else c
    c' :: pyTitleChars c.isAlpha cs

/-- `slug.replace("-", " ").title()`, the fallback of
`Brand.display_name`. -/
def titledSlug (slug : String) : String :=
  String.mk (pyTitleChars false (slug.data.map (fun c => if c == '-' then ' ' else c)))

/-- Order-preserving de-duplication keeping first occurrences, the
behaviour of `dict.fromkeys` in `_build_active_filters`. -/
def dedupFirstAux (seen : List String) : List String → List String
  | [] => []
  | x :: xs =>
    if seen.contains x then dedupFirstAux seen xs
    else x :: dedupFirstAux (x :: seen) xs

/-- `list(dict.fromkeys(l))`. -/
def dedupFirst (l : List String) : List String :=
  dedupFirstAux [] l

/-- Insert into a sorted list with respect to the boolean comparator. -/
def insertBy (le : α → α → Bool) (a : α) : List α → List α
  | [] => [a]
  | b :: bs => if le a b then a :: b :: bs else b :: insertBy le a bs

/-- Insertion sort; models the ORM `order_by` clauses.  All comparators
used below have a unique secondary key, so ties cannot arise and the
resulting order is the one the database returns. -/
def insertionSortBy (le : α → α → Bool) : List α → List α
  | [] => []
  | a :: as => insertBy le a (insertionSortBy le as)

/-- Strict byte-wise lexicographic order on character lists (ASCII
collation of the slug / name `order_by` keys). -/
def lexLt : List Char → List Char → Bool
  | [], [] => false
  | [], _ :: _ => true
  | _ :: _, [] => false
  | a :: as, b :: bs =>
    if a.val < b.val then true
    else if b.val < a.val then false
    else lexLt as bs

/-- Non-strict lexicographic order on strings. -/
def strLE (s t : String) : Bool :=
  !(lexLt t.data s.data)

/-- `Min` aggregate over a list (none on the empty list). -/
def listMinimum [Min α] : List α → Option α
  | [] => none
  | x :: xs =>
    match listMinimum xs with
    | none => some x
    | some m => some (min x m)

/-- `Max` aggregate over a list (none on the empty list). -/
def listMaximum [Max α] : List α → Option α
  | [] => none
  | x :: xs =>
    match listMaximum xs with
    | none => some x
    | some m => some (max x m)

/-! ## Data model (`src/backend/catalog/models.py`, facet-relevant part) -/

/-- `Item.ItemStatus` text choices. -/
inductive ItemStatus
  | draft
  | pendingReview
  | published
  | archived
deriving DecidableEq

/-- One `ItemPrice` row: an amount scoped to one currency code. -/
structure ItemPrice where
  currency : String
  amount : Rat
deriving DecidableEq

/-- One `ItemMeasurement` row (each field nullable). -/
structure ItemMeasurement where
  bust? : Option Rat := none
  waist? : Option Rat := none
  hip? : Option Rat := none
  len? : Option Rat := none
deriving DecidableEq

/-- A substyle reachable from an item, with the slug of its parent style
(the `substyles__style__slug` join path). -/
structure SubstyleRef where
  slug : String
  styleSlug : String
deriving DecidableEq

/-- One `Item` row with its denormalised associations.  Identifier fields
hold `str(uuid)` canonical forms; `releaseYear?` is the nullable
`release_year` column. -/
structure Item where
  slug : String
  status : ItemStatus
  brandSlug? : Option String := none
  categoryId? : Option String := none
  subcategoryId? : Option String := none
  substyles : List SubstyleRef := []
  tagIds : List String := []
  colorIds : List String := []
  collectionIds : List String := []
  fabricIds : List String := []
  featureIds : List String := []
  releaseYear? : Option Int := none
  translationNames : List String := []
  measurements : List ItemMeasurement := []
  prices : List ItemPrice := []
deriving DecidableEq

/-- One `Brand` row (facet-relevant columns).  `names` models the JSON
name map as an association list preserving key order. -/
structure Brand where
  slug : String
  names : List (String × String) := []
  country : String := ""
deriving DecidableEq

/-- One `Category` row. -/
structure Category where
  id : String
  name : String
deriving DecidableEq

/-- One `Subcategory` row. -/
structure Subcategory where
  id : String
  name : String
  categoryId? : Option String := none
deriving DecidableEq

/-- One `Style` row. -/
structure Style where
  slug : String
  name : String
deriving DecidableEq

/-- One `Substyle` row. -/
structure Substyle where
  slug : String
  name : String
  styleSlug? : Option String := none
deriving DecidableEq

/-- One `Tag` row. -/
structure Tag where
  id : String
  name : String
  type : String := "detail"
deriving DecidableEq

/-- One `Color` row. -/
structure Color where
  id : String
  name : String
  hex : String := ""
deriving DecidableEq

/-- One `Collection` row. -/
structure Collection where
  id : String
  name : String
  year? : Option Int := none
  brandSlug? : Option String := none
deriving DecidableEq

/-- One `Fabric` row. -/
structure Fabric where
  id : String
  name : String
deriving DecidableEq

/-- One `Feature` row. -/
structure Feature where
  id : String
  name : String
  category : String := "construction"
deriving DecidableEq

/-- The item repository: every table the facet engine reads. -/
structure Catalog where
  items : List Item := []
  brands : List Brand := []
  categories : List Category := []
  subcategories : List Subcategory := []
  styles : List Style := []
  substyles : List Substyle := []
  tags : List Tag := []
  colors : List Color := []
  collections : List Collection := []
  fabrics : List Fabric := []
  features : List Feature := []

/-- Process-wide configuration read by the engine:
`settings.PREFERRED_CURRENCY_CODE` (absent or any string). -/
structure Config where
  preferredCurrencyCode : Option String := none

/-- `Brand.display_name`: the `en` entry of `names`, then `default`, then
the first non-empty value, then the titled slug. -/
def brandDisplayName (b : Brand) : String :=
  match (b.names.lookup "en").filter (· ≠ "") with
  | some v => v
  | none =>
    match (b.names.lookup "default").filter (· ≠ "") with
    | some v => v
    | none =>
      match (b.names.map Prod.snd).filter (· ≠ "") with
      | v :: _ => v
      | [] => titledSlug b.slug

/-- Count of published items. -/
def publishedCount (cat : Catalog) : Nat :=
  (cat.items.filter (fun it => it.status == ItemStatus.published)).length

/-! ## Query parameters

One field per query parameter the filter core reads; each field is the
list of repeated raw values (`QueryDict.getlist`). -/

/-- The raw multi-valued query-parameter map. -/
structure QueryParams where
  q : List String := []
  brand : List String := []
  category : List String := []
  subcategory : List String := []
  style : List String := []
  substyle : List String := []
  tag : List String := []
  color : List String := []
  collection : List String := []
  fabric : List String := []
  feature : List String := []
  status : List String := []
  year : List String := []
  yearGte : List String := []
  yearLte : List String := []
  measurementBustMin : List String := []
  measurementBustMax : List String := []
  measurementWaistMin : List String := []
  measurementWaistMax : List String := []
  measurementHipMin : List String := []
  measurementHipMax : List String := []
  measurementLengthMin : List String := []
  measurementLengthMax : List String := []
  releaseYearRange : List String := []
  priceRange : List String := []
  limit : List String := []

/-- `QueryDict.get` (the last repeated value) combined with
django-filter's skip-on-empty rule: an absent parameter or an empty last
value deactivates the filter. -/
def activeValue (l : List String) : Option String :=
  match l.getLast? with
  | none => none
  | some s => if s = "" then none else some s

/-! ## Filterset semantics (`ItemFilter`, `src/backend/catalog/filters.py`)

Each declared filter becomes one predicate on an item; the filterset
`qs` is their conjunction, and `.distinct()` is the identity here. -/

/-- `SlugInFilter` on a nullable to-one slug (`brand__slug__in`). -/
def slugInOptPred (raws : List String) (slug? : Option String) : Bool :=
  match activeValue raws with
  | none => true
  | some s =>
    match slug? with
    | none => false
    | some t => (splitChar ',' s.data).any (fun tok => tok == t.data)

/-- `UUIDInFilter` on a nullable to-one id column
(`category__id__in`, `subcategory__id__in`).  The CSV tokens are parsed
as UUIDs (form validation guarantees they all parse). -/
def uuidInOptPred (raws : List String) (id? : Option String) : Bool :=
  match activeValue raws with
  | none => true
  | some s =>
    match id? with
    | none => false
    | some id =>
      ((splitChar ',' s.data).filterMap canonicalizeUUIDChars).any
        (fun tok => tok == id.data)

/-- `UUIDInFilter` through a to-many join (`tags__id__in`, ...): the item
matches when any associated id lies in the token set. -/
def uuidInManyPred (raws : List String) (ids : List String) : Bool :=
  match activeValue raws with
  | none => true
  | some s =>
    let toks := (splitChar ',' s.data).filterMap canonicalizeUUIDChars
    ids.any (fun id => toks.any (fun tok => tok == id.data))

/-- `SlugInFilter` through the `substyles__slug` to-many join. -/
def slugInManyPred (raws : List String) (slugs : List String) : Bool :=
  match activeValue raws with
  | none => true
  | some s =>
    let toks := splitChar ',' s.data
    slugs.any (fun sl => toks.any (fun tok => tok == sl.data))

/-- The `status` `MultipleChoiceFilter`: value strings against the
`ItemStatus` choices. -/
def statusOfString : String → Option ItemStatus
  | "draft" => some ItemStatus.draft
  | "pending_review" => some ItemStatus.pendingReview
  | "published" => some ItemStatus.published
  | "archived" => some ItemStatus.archived
  | _ => none

/-- `MultipleChoiceFilter` semantics: skipped when no value; otherwise an
OR of exact matches. -/
def statusPred (raws : List String) (st : ItemStatus) : Bool :=
  if raws.isEmpty then true
  else (raws.filterMap statusOfString).any (fun v => v == st)

/-- `NumberFilter` with exact lookup on the nullable integer
`release_year` column. -/
def numEqYearPred (raws : List String) (year? : Option Int) : Bool :=
  match activeValue raws with
  | none => true
  | some s =>
    match pyParseDecimal s with
    | none => true
    | some v =>
      match year? with
      | none => false
      | some y => (y : Rat) == v

/-- `NumberFilter` with `gte` lookup on `release_year`. -/
def numGteYearPred (raws : List String) (year? : Option Int) : Bool :=
  match activeValue raws with
  | none => true
  | some s =>
    match pyParseDecimal s with
    | none => true
    | some v =>
      match year? with
      | none => false
      | some y => v ≤ (y : Rat)

/-- `NumberFilter` with `lte` lookup on `release_year`. -/
def numLteYearPred (raws : List String) (year? : Option Int) : Bool :=
  match activeValue raws with
  | none => true
  | some s =>
    match pyParseDecimal s with
    | none => true
    | some v =>
      match year? with
      | none => false
      | some y => (y : Rat) ≤ v

/-- `NumberFilter` with `gte` lookup through the `measurements` to-many
join: each bound is a separate `filter()` call, hence its own exists. -/
def measGtePred (raws : List String) (get : ItemMeasurement → Option Rat)
    (ms : List ItemMeasurement) : Bool :=
  match activeValue raws with
  | none => true
  | some s =>
    match pyParseDecimal s with
    | none => true
    | some v =>
      ms.any (fun m =>
        match get m with
        | some x => v ≤ x
        | none => false)

/-- `NumberFilter` with `lte` lookup through `measurements`. -/
def measLtePred (raws : List String) (get : ItemMeasurement → Option Rat)
    (ms : List ItemMeasurement) : Bool :=
  match activeValue raws with
  | none => true
  | some s =>
    match pyParseDecimal s with
    | none => true
    | some v =>
      ms.any (fun m =>
        match get m with
        | some x => x ≤ v
        | none => false)

/-- `ItemFilter.filter_search`: case-insensitive match against any
translation name, the brand slug, or the item slug. -/
def searchPred (raws : List String) (it : Item) : Bool :=
  match activeValue raws with
  | none => true
  | some s =>
    it.translationNames.any (fun n => icontains n s) ||
    (match it.brandSlug? with
     | some b => icontains b s
     | none => false) ||
    icontains it.slug s

/-- One parsed `release_year_range` entry of
`ItemFilter.filter_release_year_range`: partition on the first colon,
parse each side with `_parse_int`, discard when both sides fail. -/
def yearRangeClause (raw : String) : Option (Option Int × Option Int) :=
  let p := partitionChar ':' raw.data
  let minV := cond p.2.1 (pyParseIntChars p.1) (pyParseIntChars raw.data)
  let maxV := cond p.2.1 (pyParseIntChars p.2.2) none
  if minV.isNone && maxV.isNone then none else some (minV, maxV)

/-- The conjunction `Q(release_year__gte=min) & Q(release_year__lte=max)`
restricted to the bounds present; a NULL `release_year` fails either
comparison. -/
def qYearClause (mn mx : Option Int) (year? : Option Int) : Bool :=
  (match mn with
   | none => true
   | some v =>
     match year? with
     | none => false
     | some y => v ≤ y) &&
  (match mx with
   | none => true
   | some v =>
     match year? with
     | none => false
     | some y => y ≤ v)

/-- `filter_release_year_range`: OR of the kept clauses over all repeated
raw values; with no kept clause the empty `Q()` is falsy and the queryset
is returned unchanged. -/
def yearRangePred (raws : List String) (year? : Option Int) : Bool :=
  match activeValue raws with
  | none => true
  | some _ =>
    let clauses := raws.filterMap yearRangeClause
    if clauses.isEmpty then true
    else clauses.any (fun c => qYearClause c.1 c.2 year?)

/-- Shared tail of `filter_price_range`'s per-entry parse: resolve the
currency (`currency_part or preferred`, skipping a falsy result), parse
the bounds with `_parse_decimal`, and discard when both bounds fail. -/
def priceClauseOf (cfg : Config) (c mn mx : List Char) :
    Option (String × Option Rat × Option Rat) :=
  let code? := if c.isEmpty then cfg.preferredCurrencyCode else some (String.mk c)
  match code? with
  | none => none
  | some code =>
    if code = "" then none
    else
      let minV := pyParseNumberChars mn
      let maxV := pyParseNumberChars mx
      if minV.isNone && maxV.isNone then none else some (code, minV, maxV)

/-- One parsed `price_range` entry of `ItemFilter.filter_price_range`:
split on every colon; three or more parts take the first three, two parts
leave the max empty, one part is currency-only. -/
def priceRangeClause (cfg : Config) (raw : String) :
    Option (String × Option Rat × Option Rat) :=
  match splitChar ':' raw.data with
  | a :: b :: c :: _ => priceClauseOf cfg a b c
  | [a, b] => priceClauseOf cfg a b []
  | [a] => priceClauseOf cfg a [] []
  | [] => none

/-- `filter_price_range`: OR of the kept clauses, each demanding one
price row in the clause currency satisfying both bounds (a single
`filter()` call keeps all three conditions on the same joined row). -/
def pricePred (cfg : Config) (raws : List String) (prices : List ItemPrice) : Bool :=
  match activeValue raws with
  | none => true
  | some _ =>
    let clauses := raws.filterMap (priceRangeClause cfg)
    if clauses.isEmpty then true
    else
      clauses.any (fun cl =>
        prices.any (fun pr =>
          pr.currency == cl.1 &&
          (match cl.2.1 with
           | none => true
           | some v => v ≤ pr.amount) &&
          (match cl.2.2 with
           | none => true
           | some v => pr.amount ≤ v)))

/-- The whole `ItemFilter.qs` membership predicate: the conjunction of
every declared filter, `.distinct()` being the identity in this model. -/
def matchesItemFilter (cfg : Config) (qp : QueryParams) (it : Item) : Bool :=
  slugInOptPred qp.brand it.brandSlug? &&
  uuidInOptPred qp.category it.categoryId? &&
  uuidInOptPred qp.subcategory it.subcategoryId? &&
  slugInManyPred qp.style (it.substyles.map SubstyleRef.styleSlug) &&
  slugInManyPred qp.substyle (it.substyles.map SubstyleRef.slug) &&
  uuidInManyPred qp.tag it.tagIds &&
  uuidInManyPred qp.color it.colorIds &&
  uuidInManyPred qp.collection it.collectionIds &&
  uuidInManyPred qp.fabric it.fabricIds &&
  uuidInManyPred qp.feature it.featureIds &&
  statusPred qp.status it.status &&
  numEqYearPred qp.year it.releaseYear? &&
  numGteYearPred qp.yearGte it.releaseYear? &&
  numLteYearPred qp.yearLte it.releaseYear? &&
  measGtePred qp.measurementBustMin ItemMeasurement.bust? it.measurements &&
  measLtePred qp.measurementBustMax ItemMeasurement.bust? it.measurements &&
  measGtePred qp.measurementWaistMin ItemMeasurement.waist? it.measurements &&
  measLtePred qp.measurementWaistMax ItemMeasurement.waist? it.measurements &&
  measGtePred qp.measurementHipMin ItemMeasurement.hip? it.measurements &&
  measLtePred qp.measurementHipMax ItemMeasurement.hip? it.measurements &&
  measGtePred qp.measurementLengthMin ItemMeasurement.len? it.measurements &&
  measLtePred qp.measurementLengthMax ItemMeasurement.len? it.measurements &&
  yearRangePred qp.releaseYearRange it.releaseYear? &&
  pricePred cfg qp.priceRange it.prices &&
  searchPred qp.q it

/-- The filtered main result set (`self.filter_queryset(self.get_queryset())`).
The base `ItemViewSet.queryset` applies no status restriction. -/
def matchingItems (cfg : Config) (cat : Catalog) (qp : QueryParams) : List Item :=
  cat.items.filter (matchesItemFilter cfg qp)

/-! ## Filterset form validation

`REST_FRAMEWORK.DEFAULT_FILTER_BACKENDS` routes the list request through
django-filter's `DjangoFilterBackend`, which validates the filterset form
before filtering and (with its default `raise_exception`) turns an
invalid form into an HTTP 400.  The typed fields declared on `ItemFilter`
validate as follows: `UUIDInFilter` values must be comma-separated UUIDs,
`NumberFilter` values must be decimals, `MultipleChoiceFilter` values
must be declared choices; `CharFilter`-based fields (`q`,
`release_year_range`, `price_range`, and the slug in-filters) accept any
string. -/

/-- Form validation of one `UUIDInFilter` parameter. -/
def uuidCSVValid (raws : List String) : Bool :=
  match activeValue raws with
  | none => true
  | some s => (splitChar ',' s.data).all (fun tok => (canonicalizeUUIDChars tok).isSome)

/-- Form validation of one `NumberFilter` parameter. -/
def numberValid (raws : List String) : Bool :=
  match activeValue raws with
  | none => true
  | some s => (pyParseDecimal s).isSome

/-- Form validation of the `status` `MultipleChoiceFilter`. -/
def statusValid (raws : List String) : Bool :=
  raws.all (fun v => (statusOfString v).isSome)

/-- Whole-filterset form validity. -/
def validateItemFilter (qp : QueryParams) : Bool :=
  uuidCSVValid qp.category &&
  uuidCSVValid qp.subcategory &&
  uuidCSVValid qp.tag &&
  uuidCSVValid qp.color &&
  uuidCSVValid qp.collection &&
  uuidCSVValid qp.fabric &&
  uuidCSVValid qp.feature &&
  statusValid qp.status &&
  numberValid qp.year &&
  numberValid qp.yearGte &&
  numberValid qp.yearLte &&
  numberValid qp.measurementBustMin &&
  numberValid qp.measurementBustMax &&
  numberValid qp.measurementWaistMin &&
  numberValid qp.measurementWaistMax &&
  numberValid qp.measurementHipMin &&
  numberValid qp.measurementHipMax &&
  numberValid qp.measurementLengthMin &&
  numberValid qp.measurementLengthMax

/-! ## `ItemViewSet._extract_selected_filters` -/

/-- One parsed `release_year_range` request entry with its echo key. -/
structure YearRangeSel where
  min? : Option Int
  max? : Option Int
  valueKey : String
deriving DecidableEq

/-- One parsed `price_range` request entry with its echo key. -/
structure PriceRangeSel where
  currency : String
  min? : Option Rat
  max? : Option Rat
  valueKey : String
deriving DecidableEq

/-- The eight optional measurement bounds of the `selected` echo. -/
structure SelectedMeasurement where
  bustMin? : Option Rat := none
  bustMax? : Option Rat := none
  waistMin? : Option Rat := none
  waistMax? : Option Rat := none
  hipMin? : Option Rat := none
  hipMax? : Option Rat := none
  lengthMin? : Option Rat := none
  lengthMax? : Option Rat := none
deriving DecidableEq

/-- The `selected` dictionary of the list response. -/
structure SelectedFilters where
  q : Option String := none
  brand : List String := []
  category : List String := []
  subcategory : List String := []
  style : List String := []
  substyle : List String := []
  tag : List String := []
  color : List String := []
  collection : List String := []
  fabric : List String := []
  feature : List String := []
  measurement : SelectedMeasurement := {}
  releaseYearRanges : List YearRangeSel := []
  priceCurrency : String := "USD"
  priceRanges : List PriceRangeSel := []
deriving DecidableEq

/-- `normalize_list`: the repeated values with empty strings dropped. -/
def normalizeList (l : List String) : List String :=
  l.filter (fun v => v ≠ "")

/-- `normalize_number`: `float(...)` of the last value, `None` when
absent, empty, or unparseable. -/
def normalizeNumber (l : List String) : Option Rat :=
  match activeValue l with
  | none => none
  | some s => pyParseFloat s

/-- Parse one `release_year_range` value exactly as
`_extract_selected_filters` does; the echo key is
`f"min:max"` when a colon was present and the raw string otherwise. -/
def yearRangeSel (raw : String) : Option YearRangeSel :=
  let p := partitionChar ':' raw.data
  let minV := cond p.2.1 (pyParseIntChars p.1) (pyParseIntChars raw.data)
  let maxV := cond p.2.1 (pyParseIntChars p.2.2) none
  if minV.isNone && maxV.isNone then none
  else some ⟨minV, maxV, cond p.2.1 (String.mk (p.1 ++ ':' :: p.2.2)) (String.mk p.1)⟩

/-- `price_currency`: the configured code when it is a non-empty string,
else `"USD"`. -/
def resolvedPriceCurrency (cfg : Config) : String :=
  match cfg.preferredCurrencyCode with
  | some s => if s = "" then "USD" else s
  | none => "USD"

/-- Parse one `price_range` value exactly as `_extract_selected_filters`
does: exactly three parts are currency/min/max, two parts leave the max
empty, any other split degrades to the first part as currency with no
bounds; an empty currency part falls back to `price_currency`; the echo
key is rebuilt as `f"currency:min:max"`. -/
def priceRangeSel (cfg : Config) (raw : String) : Option PriceRangeSel :=
  let parts := splitChar ':' raw.data
  let trip : List Char × List Char × List Char :=
    match parts with
    | [a, b, c] => (a, b, c)
    | [a, b] => (a, b, [])
    | a :: _ => (a, [], [])
    | [] => ([], [], [])
  let code := if trip.1.isEmpty then resolvedPriceCurrency cfg else String.mk trip.1
  let minV := pyParseNumberChars trip.2.1
  let maxV := pyParseNumberChars trip.2.2
  if minV.isNone && maxV.isNone then none
  else some ⟨code, minV, maxV, String.mk (code.data ++ ':' :: (trip.2.1 ++ ':' :: trip.2.2))⟩

/-- `ItemViewSet._extract_selected_filters`. -/
def extractSelected (cfg : Config) (qp : QueryParams) : SelectedFilters :=
  { q := activeValue qp.q
  , brand := normalizeList qp.brand
  , category := normalizeList qp.category
  , subcategory := normalizeList qp.subcategory
  , style := normalizeList qp.style
  , substyle := normalizeList qp.substyle
  , tag := normalizeList qp.tag
  , color := normalizeList qp.color
  , collection := normalizeList qp.collection
  , fabric := normalizeList qp.fabric
  , feature := normalizeList qp.feature
  , measurement :=
      { bustMin? := normalizeNumber qp.measurementBustMin
      , bustMax? := normalizeNumber qp.measurementBustMax
      , waistMin? := normalizeNumber qp.measurementWaistMin
      , waistMax? := normalizeNumber qp.measurementWaistMax
      , hipMin? := normalizeNumber qp.measurementHipMin
      , hipMax? := normalizeNumber qp.measurementHipMax
      , lengthMin? := normalizeNumber qp.measurementLengthMin
      , lengthMax? := normalizeNumber qp.measurementLengthMax }
  , releaseYearRanges := qp.releaseYearRange.filterMap yearRangeSel
  , priceCurrency := resolvedPriceCurrency cfg
  , priceRanges := qp.priceRange.filterMap (priceRangeSel cfg) }

/-! ## `ItemViewSet._build_filters_payload`

The payload is embedded for the dimensions the claims address: the flat
annotated option lists (brands, tags, colors, fabrics, features), the
release-year range facet and the price facet.  The hierarchical
category/subcategory and style/substyle lists, the collection list and
the measurement aggregates follow the same annotate-filter-order-cap
pattern and are not needed by any claim. -/

/-- A brand facet option as serialised by the payload. -/
structure BrandOption where
  slug : String
  name : String
  selected : Bool
  itemCount : Nat
  country : String
deriving DecidableEq

/-- A tag facet option. -/
structure TagOption where
  id : String
  name : String
  selected : Bool
  type : String
  itemCount : Nat
deriving DecidableEq

/-- A color facet option. -/
structure ColorOption where
  id : String
  name : String
  selected : Bool
  hex : String
  itemCount : Nat
deriving DecidableEq

/-- A fabric facet option. -/
structure FabricOption where
  id : String
  name : String
  selected : Bool
  itemCount : Nat
deriving DecidableEq

/-- A feature facet option. -/
structure FeatureOption where
  id : String
  name : String
  selected : Bool
  category : String
  itemCount : Nat
deriving DecidableEq

/-- The global release-year range facet. -/
structure ReleaseYearFacet where
  min? : Option Int
  max? : Option Int
deriving DecidableEq

/-- The price facet: resolved currency plus global min/max amount. -/
structure PriceFacet where
  currency : String
  min? : Option Rat
  max? : Option Rat
deriving DecidableEq

/-- The embedded `filters` payload. -/
structure FiltersPayload where
  brands : List BrandOption
  tags : List TagOption
  colors : List ColorOption
  fabrics : List FabricOption
  features : List FeatureOption
  releaseYear : ReleaseYearFacet
  prices : PriceFacet
deriving DecidableEq

/-- `Count("items", filter=published, distinct=True)` for a brand. -/
def brandItemCount (cat : Catalog) (slug : String) : Nat :=
  (cat.items.filter (fun it =>
    it.status == ItemStatus.published && it.brandSlug? == some slug)).length

/-- The published distinct item count for a tag. -/
def tagItemCount (cat : Catalog) (id : String) : Nat :=
  (cat.items.filter (fun it =>
    it.status == ItemStatus.published && it.tagIds.contains id)).length

/-- The published distinct item count for a color. -/
def colorItemCount (cat : Catalog) (id : String) : Nat :=
  (cat.items.filter (fun it =>
    it.status == ItemStatus.published && it.colorIds.contains id)).length

/-- The published distinct item count for a fabric. -/
def fabricItemCount (cat : Catalog) (id : String) : Nat :=
  (cat.items.filter (fun it =>
    it.status == ItemStatus.published && it.fabricIds.contains id)).length

/-- The published distinct item count for a feature. -/
def featureItemCount (cat : Catalog) (id : String) : Nat :=
  (cat.items.filter (fun it =>
    it.status == ItemStatus.published && it.featureIds.contains id)).length

/-- `order_by("-item_count", "slug")` on annotated brands. -/
def brandLE (x y : Brand × Nat) : Bool :=
  y.2 < x.2 || (x.2 == y.2 && strLE x.1.slug y.1.slug)

/-- The annotated, restricted and sorted brand pool before the cap of
48 is applied (`annotate`, `filter(item_count>0 | selected)`,
`order_by`). -/
def brandPool (cat : Catalog) (selectedSlugs : List String) : List (Brand × Nat) :=
  insertionSortBy brandLE
    ((cat.brands.map (fun b => (b, brandItemCount cat b.slug))).filter
      (fun bc => 0 < bc.2 || selectedSlugs.contains bc.1.slug))

/-- The brand option list: the pool capped at 48, serialised.  The cap
is applied after ordering and selected-but-truncated values are not
re-appended. -/
def brandOptionsOf (cat : Catalog) (selectedSlugs : List String) : List BrandOption :=
  ((brandPool cat selectedSlugs).take 48).map (fun bc =>
    ⟨bc.1.slug, brandDisplayName bc.1, selectedSlugs.contains bc.1.slug, bc.2, bc.1.country⟩)

/-- `order_by("-item_count", "name")` on annotated tags. -/
def tagLE (x y : Tag × Nat) : Bool :=
  y.2 < x.2 || (x.2 == y.2 && strLE x.1.name y.1.name)

/-- The annotated, restricted and sorted tag pool before the cap of 60
is applied. -/
def tagPool (cat : Catalog) (selectedIds : List String) : List (Tag × Nat) :=
  insertionSortBy tagLE
    ((cat.tags.map (fun t => (t, tagItemCount cat t.id))).filter
      (fun tc => 0 < tc.2 || selectedIds.contains tc.1.id))

/-- The tag option list (cap 60, applied after ordering). -/
def tagOptionsOf (cat : Catalog) (selectedIds : List String) : List TagOption :=
  ((tagPool cat selectedIds).take 60).map (fun tc =>
    ⟨tc.1.id, tc.1.name, selectedIds.contains tc.1.id, tc.1.type, tc.2⟩)

/-- `order_by("-item_count", "name")` on annotated colors. -/
def colorLE (x y : Color × Nat) : Bool :=
  y.2 < x.2 || (x.2 == y.2 && strLE x.1.name y.1.name)

/-- The color option list (cap 48). -/
def colorOptionsOf (cat : Catalog) (selectedIds : List String) : List ColorOption :=
  let annotated := cat.colors.map (fun c => (c, colorItemCount cat c.id))
  let pool := insertionSortBy colorLE
    (annotated.filter (fun cc => 0 < cc.2 || selectedIds.contains cc.1.id))
  (pool.take 48).map (fun cc =>
    ⟨cc.1.id, cc.1.name, selectedIds.contains cc.1.id, cc.1.hex, cc.2⟩)

/-- `order_by("name")` on annotated fabrics. -/
def fabricLE (x y : Fabric × Nat) : Bool :=
  strLE x.1.name y.1.name

/-- The fabric option list (cap 48). -/
def fabricOptionsOf (cat : Catalog) (selectedIds : List String) : List FabricOption :=
  let annotated := cat.fabrics.map (fun f => (f, fabricItemCount cat f.id))
  let pool := insertionSortBy fabricLE
    (annotated.filter (fun fc => 0 < fc.2 || selectedIds.contains fc.1.id))
  (pool.take 48).map (fun fc =>
    ⟨fc.1.id, fc.1.name, selectedIds.contains fc.1.id, fc.2⟩)

/-- `order_by("name")` on annotated features. -/
def featureLE (x y : Feature × Nat) : Bool :=
  strLE x.1.name y.1.name

/-- The feature option list (cap 48). -/
def featureOptionsOf (cat : Catalog) (selectedIds : List String) : List FeatureOption :=
  let annotated := cat.features.map (fun f => (f, featureItemCount cat f.id))
  let pool := insertionSortBy featureLE
    (annotated.filter (fun fc => 0 < fc.2 || selectedIds.contains fc.1.id))
  (pool.take 48).map (fun fc =>
    ⟨fc.1.id, fc.1.name, selectedIds.contains fc.1.id, fc.1.category, fc.2⟩)

/-- `Min`/`Max` of `release_year` over published items with a year. -/
def releaseYearFacetOf (cat : Catalog) : ReleaseYearFacet :=
  let ys := (cat.items.filter (fun it =>
    it.status == ItemStatus.published && it.releaseYear?.isSome)).filterMap Item.releaseYear?
  ⟨listMinimum ys, listMaximum ys⟩

/-- All `ItemPrice` rows of published items. -/
def publishedPriceRows (cat : Catalog) : List ItemPrice :=
  (cat.items.filter (fun it => it.status == ItemStatus.published)).flatMap Item.prices

/-- `Min`/`Max` of `amount` over published price rows in one currency. -/
def priceAgg (cat : Catalog) (code : String) : Option Rat × Option Rat :=
  let amts := ((publishedPriceRows cat).filter (fun pr => pr.currency == code)).map
    ItemPrice.amount
  (listMinimum amts, listMaximum amts)

/-- Number of published price rows in one currency
(`Count("id")` on the grouped `ItemPrice` queryset: rows, not items). -/
def currencyRowCount (cat : Catalog) (code : String) : Nat :=
  ((publishedPriceRows cat).filter (fun pr => pr.currency == code)).length

/-- The grouped currency counts
(`values("currency__code").annotate(currency_count=Count("id"))`),
grouped in first-appearance order. -/
def currencyCounts (cat : Catalog) : List (String × Nat) :=
  (dedupFirst ((publishedPriceRows cat).map ItemPrice.currency)).map
    (fun c => (c, currencyRowCount cat c))

/-- First entry with the maximal count, modelling
`.order_by("-currency_count").first()`; a tie keeps the
earlier-appearing currency (the database tie order is unspecified). -/
def firstMaxBy : List (String × Nat) → Option (String × Nat)
  | [] => none
  | x :: xs =>
    match firstMaxBy xs with
    | none => some x
    | some m => if x.2 < m.2 then some m else some x

/-- The fallback currency: the code with the most published price rows. -/
def fallbackCurrency (cat : Catalog) : Option String :=
  (firstMaxBy (currencyCounts cat)).map Prod.fst

/-- The price facet resolution of `_build_filters_payload`
(views lines 658-703): try the configured currency, fall back to the
row-count winner when it has no published rows, default the final code
to `"USD"`. -/
def priceFacetOf (cfg : Config) (cat : Catalog) : PriceFacet :=
  let pref0 : Option String :=
    match cfg.preferredCurrencyCode with
    | some s => if s = "" then none else some s
    | none => none
  let stats0 : Option (Option Rat × Option Rat) := pref0.map (priceAgg cat)
  let needFallback : Bool :=
    match stats0 with
    | none => true
    | some st => st.1.isNone && st.2.isNone
  let resolved : Option String × Option (Option Rat × Option Rat) :=
    if needFallback then
      match fallbackCurrency cat with
      | some c2 => (some c2, some (priceAgg cat c2))
      | none => (pref0, stats0)
    else (pref0, stats0)
  match resolved.2 with
  | some st => ⟨resolved.1.getD "USD", st.1, st.2⟩
  | none => ⟨resolved.1.getD "USD", none, none⟩

/-- The embedded `filters` payload builder. -/
def buildFiltersPayload (cfg : Config) (cat : Catalog) (sel : SelectedFilters) :
    FiltersPayload :=
  { brands := brandOptionsOf cat sel.brand
  , tags := tagOptionsOf cat sel.tag
  , colors := colorOptionsOf cat sel.color
  , fabrics := fabricOptionsOf cat sel.fabric
  , features := featureOptionsOf cat sel.feature
  , releaseYear := releaseYearFacetOf cat
  , prices := priceFacetOf cfg cat }

/-! ## `ItemViewSet._build_active_filters` -/

/-- One active-filter chip.  The search chip is the only one built
without a `value_key` entry, hence the optional field. -/
structure ActiveFilterChip where
  label : String
  value : String
  param : String
  valueKey? : Option String
deriving DecidableEq

/-- Fractional digits of a rational in `[0, 1)`, most significant
first. -/
def fracDigitsAux : Nat → Rat → List Char
  | 0, _ => []
  | n + 1, fr =>
    let d := (fr * 10).floor
    Char.ofNat (48 + d.toNat) :: fracDigitsAux n (fr * 10 - (d : Rat))

/-- Model of Python `f"{v:g}"` for the moderate magnitudes the chips
show: integer part, then up to six fractional digits with trailing zeros
trimmed.  (The scientific-notation regime of `%g` is outside the
modelled fragment; no claim depends on chip display strings.) -/
def formatG (q : Rat) : String :=
  let aq := if q < 0 then -q else q
  let ip := aq.floor
  let ds := fracDigitsAux 6 (aq - (ip : Rat))
  let ds := (ds.reverse.dropWhile (fun c => c == '0')).reverse
  (if q < 0 then "-" else "") ++ toString ip ++
    (if ds.isEmpty then "" else "." ++ String.mk ds)

/-- The `Search` chip (no `value_key`). -/
def searchChipsOf (q? : Option String) : List ActiveFilterChip :=
  match q? with
  | none => []
  | some s => [⟨"Search", s, "q", none⟩]

/-- Brand chips: de-duplicated selected slugs looked up in the table. -/
def brandChipsOf (cat : Catalog) (slugs : List String) : List ActiveFilterChip :=
  (dedupFirst slugs).filterMap (fun slug =>
    (cat.brands.find? (fun b => b.slug == slug)).map (fun b =>
      ⟨"Brand", brandDisplayName b, "brand", some b.slug⟩))

/-- Category chips. -/
def categoryChipsOf (cat : Catalog) (ids : List String) : List ActiveFilterChip :=
  (dedupFirst ids).filterMap (fun id =>
    (cat.categories.find? (fun c => c.id == id)).map (fun c =>
      ⟨"Category", c.name, "category", some c.id⟩))

/-- Subcategory chips, labelled through the parent category when one is
linked. -/
def subcategoryChipsOf (cat : Catalog) (ids : List String) : List ActiveFilterChip :=
  (dedupFirst ids).filterMap (fun id =>
    (cat.subcategories.find? (fun s => s.id == id)).map (fun s =>
      let value :=
        match s.categoryId? with
        | some cid =>
          match cat.categories.find? (fun c => c.id == cid) with
          | some c => c.name ++ " › " ++ s.name
          | none => s.name
        | none => s.name
      ⟨"Subcategory", value, "subcategory", some s.id⟩))

/-- Style chips. -/
def styleChipsOf (cat : Catalog) (slugs : List String) : List ActiveFilterChip :=
  (dedupFirst slugs).filterMap (fun slug =>
    (cat.styles.find? (fun s => s.slug == slug)).map (fun s =>
      ⟨"Style", s.name, "style", some s.slug⟩))

/-- Substyle chips, labelled through the parent style when linked. -/
def substyleChipsOf (cat : Catalog) (slugs : List String) : List ActiveFilterChip :=
  (dedupFirst slugs).filterMap (fun slug =>
    (cat.substyles.find? (fun s => s.slug == slug)).map (fun s =>
      let value :=
        match s.styleSlug? with
        | some stSlug =>
          match cat.styles.find? (fun st => st.slug == stSlug) with
          | some st => st.name ++ " › " ++ s.name
          | none => s.name
        | none => s.name
      ⟨"Substyle", value, "substyle", some s.slug⟩))

/-- Tag chips. -/
def tagChipsOf (cat : Catalog) (ids : List String) : List ActiveFilterChip :=
  (dedupFirst ids).filterMap (fun id =>
    (cat.tags.find? (fun t => t.id == id)).map (fun t =>
      ⟨"Tag", t.name, "tag", some t.id⟩))

/-- Color chips. -/
def colorChipsOf (cat : Catalog) (ids : List String) : List ActiveFilterChip :=
  (dedupFirst ids).filterMap (fun id =>
    (cat.colors.find? (fun c => c.id == id)).map (fun c =>
      ⟨"Color", c.name, "color", some c.id⟩))

/-- Fabric chips. -/
def fabricChipsOf (cat : Catalog) (ids : List String) : List ActiveFilterChip :=
  (dedupFirst ids).filterMap (fun id =>
    (cat.fabrics.find? (fun f => f.id == id)).map (fun f =>
      ⟨"Fabric", f.name, "fabric", some f.id⟩))

/-- Feature chips. -/
def featureChipsOf (cat : Catalog) (ids : List String) : List ActiveFilterChip :=
  (dedupFirst ids).filterMap (fun id =>
    (cat.features.find? (fun f => f.id == id)).map (fun f =>
      ⟨"Feature", f.name, "feature", some f.id⟩))

/-- Collection chips (the year prefixes the display name when set). -/
def collectionChipsOf (cat : Catalog) (ids : List String) : List ActiveFilterChip :=
  (dedupFirst ids).filterMap (fun id =>
    (cat.collections.find? (fun c => c.id == id)).map (fun c =>
      let value :=
        match c.year? with
        | some y => toString y ++ " " ++ c.name
        | none => c.name
      ⟨"Collection", value, "collection", some c.id⟩))

/-- One measurement chip: comparator, `%g`-formatted value, unit. -/
def measChip (label param comp : String) : Option Rat → List ActiveFilterChip
  | none => []
  | some v => [⟨label, comp ++ " " ++ formatG v ++ " cm", param, some (formatG v)⟩]

/-- The eight measurement chips in the source's dictionary order. -/
def measurementChipsOf (m : SelectedMeasurement) : List ActiveFilterChip :=
  measChip "Bust" "measurement_bust_min" "≥" m.bustMin? ++
  measChip "Bust" "measurement_bust_max" "≤" m.bustMax? ++
  measChip "Waist" "measurement_waist_min" "≥" m.waistMin? ++
  measChip "Waist" "measurement_waist_max" "≤" m.waistMax? ++
  measChip "Hip" "measurement_hip_min" "≥" m.hipMin? ++
  measChip "Hip" "measurement_hip_max" "≤" m.hipMax? ++
  measChip "Length" "measurement_length_min" "≥" m.lengthMin? ++
  measChip "Length" "measurement_length_max" "≤" m.lengthMax?

/-- Display label of one release-year chip. -/
def releaseLabel (e : YearRangeSel) : String :=
  match e.min?, e.max? with
  | none, some mx => "≤ " ++ toString mx
  | some mn, none => "≥ " ++ toString mn
  | some mn, some mx => toString mn ++ "–" ++ toString mx
  | none, none => ""

/-- Release-year chips: one per kept entry, skipping entries without
bounds or with an empty echo key. -/
def releaseChipsOf (rs : List YearRangeSel) : List ActiveFilterChip :=
  rs.filterMap (fun e =>
    if e.min?.isNone && e.max?.isNone then none
    else if e.valueKey = "" then none
    else some ⟨"Release year", releaseLabel e, "release_year_range", some e.valueKey⟩)

/-- Display label of one price chip. -/
def priceLabel (e : PriceRangeSel) : String :=
  match e.min?, e.max? with
  | none, some mx => "≤ " ++ formatG mx ++ " " ++ e.currency
  | some mn, none => "≥ " ++ formatG mn ++ " " ++ e.currency
  | some mn, some mx => formatG mn ++ "–" ++ formatG mx ++ " " ++ e.currency
  | none, none => ""

/-- Price chips: one per kept entry, skipping entries with an empty
currency, no bounds, or an empty echo key. -/
def priceChipsOf (ps : List PriceRangeSel) : List ActiveFilterChip :=
  ps.filterMap (fun e =>
    if e.currency = "" then none
    else if e.min?.isNone && e.max?.isNone then none
    else if e.valueKey = "" then none
    else some ⟨"Price", priceLabel e, "price_range", some e.valueKey⟩)

/-- `ItemViewSet._build_active_filters`: all chip groups in the source's
fixed order. -/
def buildActiveFilters (cat : Catalog) (sel : SelectedFilters) : List ActiveFilterChip :=
  searchChipsOf sel.q ++
  brandChipsOf cat sel.brand ++
  categoryChipsOf cat sel.category ++
  subcategoryChipsOf cat sel.subcategory ++
  styleChipsOf cat sel.style ++
  substyleChipsOf cat sel.substyle ++
  tagChipsOf cat sel.tag ++
  colorChipsOf cat sel.color ++
  fabricChipsOf cat sel.fabric ++
  featureChipsOf cat sel.feature ++
  collectionChipsOf cat sel.collection ++
  measurementChipsOf sel.measurement ++
  releaseChipsOf sel.releaseYearRanges ++
  priceChipsOf sel.priceRanges

/-! ## `ItemViewSet.list` -/

/-- The limit resolution of `ItemViewSet.list`: the last `limit` value
when present, non-empty and integral, else 60. -/
def resolveLimit (l : List String) : Int :=
  match l.getLast? with
  | none => 60
  | some s => if s = "" then 60 else (pyParseInt s).getD 60

/-- The list response body. -/
structure ListResponse where
  results : List Item
  resultCount : Nat
  filters : FiltersPayload
  selected : SelectedFilters
  activeFilters : List ActiveFilterChip
deriving DecidableEq

/-- `ItemViewSet.list` after filterset validation: count, truncate when
the limit is positive, and assemble the payloads.  The model keeps the
filtered items in catalog order (the ordering backend only permutes the
page and no claim concerns order beyond equality of concrete lists). -/
def itemList (cfg : Config) (cat : Catalog) (qp : QueryParams) : ListResponse :=
  let matching := matchingItems cfg cat qp
  let lim := resolveLimit qp.limit
  let sel := extractSelected cfg qp
  { results := if 0 < lim then matching.take lim.toNat else matching
  , resultCount := matching.length
  , filters := buildFiltersPayload cfg cat sel
  , selected := sel
  , activeFilters := buildActiveFilters cat sel }

/-- The full endpoint including the `DjangoFilterBackend` form
validation: an invalid typed filter value surfaces as an HTTP 400. -/
def listEndpoint (cfg : Config) (cat : Catalog) (qp : QueryParams) :
    Except String ListResponse :=
  if validateItemFilter qp then Except.ok (itemList cfg cat qp)
  else Except.error "400 Bad Request"

/-! ## Concrete fixtures used by the counterexamples and witnesses -/

/-- A canonical UUID literal. -/
def uuidA : String := "00000000-0000-0000-0000-00000000000a"

/-- A second canonical UUID literal. -/
def uuidB : String := "00000000-0000-0000-0000-00000000000b"

/-- A catalog whose only item is a draft. -/
def catDraft : Catalog :=
  { items := [{ slug := "draft-item", status := ItemStatus.draft }] }

/-- The three-published-item catalog of the spec's example scenarios
(release years 1998, 2005, 2015). -/
def cat3 : Catalog :=
  { items :=
      [ { slug := "item-1998", status := ItemStatus.published, releaseYear? := some 1998 }
      , { slug := "item-2005", status := ItemStatus.published, releaseYear? := some 2005 }
      , { slug := "item-2015", status := ItemStatus.published, releaseYear? := some 2015 } ] }

/-- `release_year_range=1995:2000&release_year_range=2010:2016`. -/
def qpTwoRanges : QueryParams :=
  { releaseYearRange := ["1995:2000", "2010:2016"] }

/-- `limit=2`. -/
def qpLimit2 : QueryParams :=
  { limit := ["2"] }

/-- `limit=abc`. -/
def qpLimitBad : QueryParams :=
  { limit := ["abc"] }

/-- `tag=zzz` (not a UUID). -/
def qpBadTag : QueryParams :=
  { tag := ["zzz"] }

/-- `price_range=:100:200` (currency omitted). -/
def qpPriceNoCur : QueryParams :=
  { priceRange := [":100:200"] }

/-- `release_year_range=1995:2000&price_range=USD:100:200`. -/
def qpC2 : QueryParams :=
  { releaseYearRange := ["1995:2000"], priceRange := ["USD:100:200"] }

/-- Two published items each carrying one distinct tag. -/
def catTags : Catalog :=
  { items :=
      [ { slug := "i1", status := ItemStatus.published, tagIds := [uuidA] }
      , { slug := "i2", status := ItemStatus.published, tagIds := [uuidB] } ]
    tags := [⟨uuidA, "Tag A", "detail"⟩, ⟨uuidB, "Tag B", "detail"⟩] }

/-- `tag=<uuidA>`. -/
def qpTagA : QueryParams :=
  { tag := [uuidA] }

/-- `tag=<uuidA>,<uuidB>` (one more identifier in the same dimension). -/
def qpTagAB : QueryParams :=
  { tag := [uuidA ++ "," ++ uuidB] }

/-- Forty-eight brands with one published item each, plus a selected
brand `zsel` with no items: its annotated pool rank is 49, beyond the
cap of 48. -/
def catBig : Catalog :=
  { items := (List.range 48).map (fun i =>
      { slug := "it" ++ toString i
        status := ItemStatus.published
        brandSlug? := some ("b" ++ toString i) })
    brands := (List.range 48).map (fun i => { slug := "b" ++ toString i }) ++
      [{ slug := "zsel" }] }

/-- A catalog with one zero-count brand. -/
def catBrandZ : Catalog :=
  { brands := [{ slug := "zero" }] }

/-- A one-brand, one-item catalog. -/
def catW9 : Catalog :=
  { items :=
      [ { slug := "w", status := ItemStatus.published, brandSlug? := some "brand-w" } ]
    brands := [{ slug := "brand-w" }] }

/-- Configured preferred currency `JPY`. -/
def cfgJPY : Config :=
  { preferredCurrencyCode := some "JPY" }

/-- Configured preferred currency `USD`. -/
def cfgUSD : Config :=
  { preferredCurrencyCode := some "USD" }

/-- One published item with three EUR price rows and two published items
with one USD price row each: USD has more priced items, EUR has more
price rows. -/
def catPrices : Catalog :=
  { items :=
      [ { slug := "a", status := ItemStatus.published
          prices := [⟨"EUR", 10⟩, ⟨"EUR", 20⟩, ⟨"EUR", 30⟩] }
      , { slug := "b", status := ItemStatus.published, prices := [⟨"USD", 5⟩] }
      , { slug := "c", status := ItemStatus.published, prices := [⟨"USD", 7⟩] } ] }

/-- One published item with one USD price row. -/
def catOnePrice : Catalog :=
  { items :=
      [ { slug := "p1", status := ItemStatus.published, prices := [⟨"USD", 120⟩] } ] }

/-- Count of published items having at least one price row in the given
currency (the spec's notion of "priced published items"). -/
def pricedItemCount (cat : Catalog) (code : String) : Nat :=
  (cat.items.filter (fun it =>
    it.status == ItemStatus.published &&
      it.prices.any (fun pr => pr.currency == code))).length

/-- Join a split back with the separator (inverse of `splitChar`). -/
def joinOn (sep : Char) : List (List Char) → List Char
  | [] => []
  | [p] => p
  | p :: ps => p ++ sep :: joinOn sep ps

/-! ## Helper lemmas -/

theorem length_filter_le_of_imp {α : Type} {p q : α → Bool}
    (h : ∀ a, p a = true → q a = true) (l : List α) :
    (l.filter p).length ≤ (l.filter q).length := by
  induction l with
  | nil => simp
  | cons a t ih =>
    by_cases hp : p a = true
    · have hq := h a hp
      simp only [List.filter_cons, hp, hq, if_true, List.length_cons]
      omega
    · have hp' : p a = false := by simpa using hp
      by_cases hq : q a = true
      · simp only [List.filter_cons, hp', hq, Bool.false_eq_true, if_false, if_true,
          List.length_cons]
        omega
      · have hq' : q a = false := by simpa using hq
        simpa only [List.filter_cons, hp', hq', Bool.false_eq_true, if_false] using ih

theorem mem_insertBy {α : Type} (le : α → α → Bool) (x a : α) (l : List α) :
    a ∈ insertBy le x l ↔ a = x ∨ a ∈ l := by
  induction l with
  | nil => simp [insertBy]
  | cons b t ih =>
    by_cases hle : le x b = true
    · simp [insertBy, hle]
    · simp [insertBy, hle, ih]
      tauto

theorem mem_insertionSortBy {α : Type} (le : α → α → Bool) (a : α) (l : List α) :
    a ∈ insertionSortBy le l ↔ a ∈ l := by
  induction l with
  | nil => simp [insertionSortBy]
  | cons b t ih =>
    simp [insertionSortBy, mem_insertBy, ih]

theorem length_insertBy {α : Type} (le : α → α → Bool) (x : α) (l : List α) :
    (insertBy le x l).length = l.length + 1 := by
  induction l with
  | nil => simp [insertBy]
  | cons b t ih =>
    by_cases hle : le x b = true
    · simp [insertBy, hle]
    · simp [insertBy, hle, ih]

theorem length_insertionSortBy {α : Type} (le : α → α → Bool) (l : List α) :
    (insertionSortBy le l).length = l.length := by
  induction l with
  | nil => rfl
  | cons b t ih =>
    simp [insertionSortBy, length_insertBy, ih]

theorem splitChar_ne_nil (sep : Char) (cs : List Char) : splitChar sep cs ≠ [] := by
  cases cs with
  | nil => simp [splitChar]
  | cons c cs =>
    simp only [splitChar]
    by_cases h : (c == sep) = true
    · simp [h]
    · simp only [h, Bool.false_eq_true, if_false]
      split <;> simp

theorem splitChar_append (sep : Char) (xs ys : List Char) :
    splitChar sep (xs ++ sep :: ys) = splitChar sep xs ++ splitChar sep ys := by
  induction xs with
  | nil => simp [splitChar]
  | cons c cs ih =>
    by_cases h : (c == sep) = true
    · simp [splitChar, h, ih]
    · simp only [List.cons_append, splitChar, h, Bool.false_eq_true, if_false,
        List.append_eq]
      rw [ih]
      rcases hcs : splitChar sep cs with _ | ⟨p, ps⟩
      · exact absurd hcs (splitChar_ne_nil sep cs)
      · simp [hcs]

theorem joinOn_splitChar (sep : Char) (cs : List Char) :
    joinOn sep (splitChar sep cs) = cs := by
  induction cs with
  | nil => rfl
  | cons c cs ih =>
    by_cases h : (c == sep) = true
    · have hc : c = sep := by simpa using h
      simp only [splitChar, h, if_true]
      rcases hcs : splitChar sep cs with _ | ⟨p, ps⟩
      · exact absurd hcs (splitChar_ne_nil sep cs)
      · rw [hcs] at ih
        simpa [joinOn, hc] using ih
    · simp only [splitChar, h, Bool.false_eq_true, if_false]
      rcases hcs : splitChar sep cs with _ | ⟨p, ps⟩
      · exact absurd hcs (splitChar_ne_nil sep cs)
      · rw [hcs] at ih
        cases ps with
        | nil => simpa [joinOn] using ih
        | cons q qs => simpa [joinOn] using ih

theorem partitionChar_true (sep : Char) (cs a b : List Char)
    (h : partitionChar sep cs = (a, true, b)) : cs = a ++ sep :: b := by
  induction cs generalizing a b with
  | nil => simp [partitionChar] at h
  | cons c cs ih =>
    by_cases hc : (c == sep) = true
    · have hc' : c = sep := by simpa using hc
      simp only [partitionChar, hc, if_true, Prod.mk.injEq] at h
      obtain ⟨ha, _, hb⟩ := h
      simp [← ha, ← hb, hc']
    · simp only [partitionChar, hc, Bool.false_eq_true, if_false, Prod.mk.injEq] at h
      obtain ⟨ha, hf, hb⟩ := h
      rcases hp : partitionChar sep cs with ⟨a', f', b'⟩
      rw [hp] at ha hf hb
      dsimp only at ha hf hb
      subst hf hb
      have := ih a' b' (by rw [hp])
      simp [← ha, this]

theorem partitionChar_false (sep : Char) (cs a b : List Char)
    (h : partitionChar sep cs = (a, false, b)) : a = cs ∧ b = [] := by
  induction cs generalizing a b with
  | nil =>
    simp only [partitionChar, Prod.mk.injEq] at h
    exact ⟨h.1.symm, h.2.2.symm⟩
  | cons c cs ih =>
    by_cases hc : (c == sep) = true
    · simp [partitionChar, hc] at h
    · simp only [partitionChar, hc, Bool.false_eq_true, if_false, Prod.mk.injEq] at h
      obtain ⟨ha, hf, hb⟩ := h
      rcases hp : partitionChar sep cs with ⟨a', f', b'⟩
      rw [hp] at ha hf hb
      dsimp only at ha hf hb
      subst hf hb
      have := ih a' b' (by rw [hp])
      simp [← ha, this.1, this.2]

theorem mem_dedupFirstAux (seen l : List String) (a : String) :
    a ∈ dedupFirstAux seen l ↔ a ∈ l ∧ seen.contains a = false := by
  induction l generalizing seen with
  | nil => simp [dedupFirstAux]
  | cons x xs ih =>
    by_cases hx : seen.contains x = true
    · simp only [dedupFirstAux, hx, if_true, ih, List.mem_cons]
      constructor
      · rintro ⟨h1, h2⟩
        exact ⟨Or.inr h1, h2⟩
      · rintro ⟨h1 | h1, h2⟩
        · subst h1
          rw [hx] at h2
          cases h2
        · exact ⟨h1, h2⟩
    · have hx' : seen.contains x = false := by simpa using hx
      simp only [dedupFirstAux, hx', Bool.false_eq_true, if_false, List.mem_cons, ih,
        List.contains_cons, Bool.or_eq_false_iff, beq_eq_false_iff_ne, ne_eq]
      constructor
      · rintro (h1 | ⟨h1, h2, h3⟩)
        · subst h1
          exact ⟨Or.inl rfl, hx'⟩
        · exact ⟨Or.inr h1, h3⟩
      · rintro ⟨h1, h2⟩
        by_cases hax : a = x
        · exact Or.inl hax
        · rcases h1 with h1 | h1
          · exact Or.inl h1
          · exact Or.inr ⟨h1, hax, h2⟩

theorem mem_dedupFirst (l : List String) (a : String) :
    a ∈ dedupFirst l ↔ a ∈ l := by
  simp [dedupFirst, mem_dedupFirstAux]

theorem listMinimum_eq_none_iff {α : Type} [Min α] (l : List α) :
    listMinimum l = none ↔ l = [] := by
  cases l with
  | nil => simp [listMinimum]
  | cons x xs =>
    simp only [listMinimum]
    cases h : listMinimum xs <;> simp

theorem firstMaxBy_mem (l : List (String × Nat)) (m : String × Nat)
    (h : firstMaxBy l = some m) : m ∈ l := by
  induction l generalizing m with
  | nil => simp [firstMaxBy] at h
  | cons x xs ih =>
    simp only [firstMaxBy] at h
    cases hx : firstMaxBy xs with
    | none =>
      rw [hx] at h
      simp at h
      simp [h]
    | some m' =>
      rw [hx] at h
      dsimp only at h
      by_cases hlt : x.2 < m'.2
      · rw [if_pos hlt] at h
        simp at h
        subst h
        exact List.mem_cons_of_mem x (ih m' hx)
      · rw [if_neg hlt] at h
        simp at h
        simp [h]

theorem firstMaxBy_max (l : List (String × Nat)) (m : String × Nat)
    (h : firstMaxBy l = some m) : ∀ x ∈ l, x.2 ≤ m.2 := by
  induction l generalizing m with
  | nil => simp [firstMaxBy] at h
  | cons x xs ih =>
    simp only [firstMaxBy] at h
    cases hx : firstMaxBy xs with
    | none =>
      rw [hx] at h
      simp at h
      subst h
      intro y hy
      rcases List.mem_cons.mp hy with hy | hy
      · simp [hy]
      · cases xs with
        | nil => cases hy
        | cons z zs =>
          simp only [firstMaxBy] at hx
          cases hz : firstMaxBy zs with
          | none => rw [hz] at hx; simp at hx
          | some mz =>
            rw [hz] at hx
            dsimp only at hx
            by_cases hlt : z.2 < mz.2 <;> simp [hlt] at hx
    | some m' =>
      rw [hx] at h
      dsimp only at h
      intro y hy
      rcases List.mem_cons.mp hy with hy | hy
      · subst hy
        by_cases hlt : y.2 < m'.2
        · rw [if_pos hlt] at h
          simp at h
          subst h
          omega
        · rw [if_neg hlt] at h
          simp at h
          subst h
          exact Nat.le_refl _
      · have hym := ih m' hx y hy
        by_cases hlt : x.2 < m'.2
        · rw [if_pos hlt] at h
          simp at h
          subst h
          exact hym
        · rw [if_neg hlt] at h
          simp at h
          subst h
          omega

theorem firstMaxBy_isSome (l : List (String × Nat)) (h : l ≠ []) :
    (firstMaxBy l).isSome = true := by
  cases l with
  | nil => exact absurd rfl h
  | cons x xs =>
    simp only [firstMaxBy]
    cases hx : firstMaxBy xs with
    | none => simp
    | some m' => by_cases hlt : x.2 < m'.2 <;> simp [hlt]

theorem string_mk_ne_empty (l : List Char) (h : l ≠ []) : String.mk l ≠ "" := by
  intro he
  exact h (congrArg String.data he)

theorem pyParseIntChars_nil : pyParseIntChars [] = none := rfl

theorem activeValue_cons_cons (a b : String) (l : List String) :
    activeValue (a :: b :: l) = activeValue (b :: l) := by
  simp [activeValue, List.getLast?_cons_cons]

theorem yearRangePred_cons_none (raw : String) (raws : List String) (y? : Option Int)
    (h : yearRangeClause raw = none) :
    yearRangePred (raw :: raws) y? = yearRangePred raws y? := by
  cases raws with
  | nil =>
    by_cases hr : raw = ""
    · subst hr
      rfl
    · have hav : activeValue [raw] = some raw := by simp [activeValue, hr]
      unfold yearRangePred
      rw [hav]
      simp only [List.filterMap_cons, h]
      rfl
  | cons r rs =>
    unfold yearRangePred
    rw [activeValue_cons_cons]
    cases hv : activeValue (r :: rs) with
    | none => rfl
    | some s => simp [List.filterMap_cons, h]

theorem pricePred_cons_none (cfg : Config) (raw : String) (raws : List String)
    (prices : List ItemPrice) (h : priceRangeClause cfg raw = none) :
    pricePred cfg (raw :: raws) prices = pricePred cfg raws prices := by
  cases raws with
  | nil =>
    by_cases hr : raw = ""
    · subst hr
      rfl
    · have hav : activeValue [raw] = some raw := by simp [activeValue, hr]
      unfold pricePred
      rw [hav]
      simp only [List.filterMap_cons, h]
      rfl
  | cons r rs =>
    unfold pricePred
    rw [activeValue_cons_cons]
    cases hv : activeValue (r :: rs) with
    | none => rfl
    | some s => simp [List.filterMap_cons, h]

theorem string_append_data (s v : String) :
    (s ++ "," ++ v).data = s.data ++ ',' :: v.data := by
  rw [String.data_append, String.data_append]
  simp

theorem uuidInManyPred_mono (raws : List String) (s v : String) (ids : List String)
    (hs : activeValue raws = some s)
    (h : uuidInManyPred raws ids = true) :
    uuidInManyPred [s ++ "," ++ v] ids = true := by
  have hne : s ++ "," ++ v ≠ "" := by
    intro he
    have := congrArg String.data he
    rw [string_append_data] at this
    simp at this
  have hav : activeValue [s ++ "," ++ v] = some (s ++ "," ++ v) := by
    simp [activeValue, hne]
  unfold uuidInManyPred at h ⊢
  rw [hs] at h
  dsimp only at h
  rw [hav]
  dsimp only
  rw [string_append_data, splitChar_append, List.filterMap_append]
  simp only [List.any_eq_true] at h ⊢
  obtain ⟨id, hid, tok, htokmem, htokeq⟩ := h
  exact ⟨id, hid, tok, List.mem_append_left _ htokmem, htokeq⟩

/-! ## Claims -/

/-- C1 (corrected).  The base `ItemViewSet.queryset` applies no
publication-status restriction and `list` counts the filtered queryset
directly, so for an unfiltered request `result_count` equals the number
of ALL items in the catalog, whatever their status — not the number of
published items. -/
theorem c1_unfiltered_result_count (cfg : Config) (cat : Catalog) :
    (itemList cfg cat {}).resultCount = cat.items.length := by
  show (matchingItems cfg cat {}).length = cat.items.length
  unfold matchingItems
  have h : List.filter (matchesItemFilter cfg {}) cat.items = cat.items :=
    List.filter_eq_self.mpr (fun a _ => rfl)
  rw [h]

/-- C1 counterexample: on a catalog whose only item is a draft, the
unfiltered `result_count` is 1 while the published count is 0, refuting
"`result_count` for an unfiltered request equals the count of all
published items". -/
theorem c1_counterexample :
    (itemList {} catDraft {}).resultCount = 1 ∧
    publishedCount catDraft = 0 ∧
    (itemList {} catDraft {}).resultCount ≠ publishedCount catDraft := by
  refine ⟨rfl, rfl, by decide⟩

/-- C4 (corrected).  Identifier sets combine with OR inside a dimension
(`__in` lookups), so appending one more identifier to an already
non-empty selection can only widen the result set: every previously
matching item still matches and `result_count` never decreases.  (The
claim asserted the opposite direction: that it never increases.) -/
theorem c4_adding_identifier_widens (cfg : Config) (cat : Catalog) (qp : QueryParams)
    (s v : String) (hs : activeValue qp.tag = some s) :
    (∀ it : Item, matchesItemFilter cfg qp it = true →
      matchesItemFilter cfg { qp with tag := [s ++ "," ++ v] } it = true) ∧
    (itemList cfg cat qp).resultCount ≤
      (itemList cfg cat { qp with tag := [s ++ "," ++ v] }).resultCount := by
  have key : ∀ it : Item, matchesItemFilter cfg qp it = true →
      matchesItemFilter cfg { qp with tag := [s ++ "," ++ v] } it = true := by
    intro it hm
    unfold matchesItemFilter at hm ⊢
    dsimp only
    simp only [Bool.and_eq_true, and_assoc] at hm ⊢
    exact ⟨hm.1, hm.2.1, hm.2.2.1, hm.2.2.2.1, hm.2.2.2.2.1,
      uuidInManyPred_mono qp.tag s v it.tagIds hs hm.2.2.2.2.2.1,
      hm.2.2.2.2.2.2⟩
  refine ⟨key, ?_⟩
  show (matchingItems cfg cat qp).length ≤ _
  unfold matchingItems
  exact length_filter_le_of_imp key cat.items

/-- C4 witness: the widening theorem applied to the two-tag catalog. -/
theorem c4_witness :
    (itemList {} catTags qpTagA).resultCount ≤
      (itemList {} catTags qpTagAB).resultCount :=
  (c4_adding_identifier_widens {} catTags qpTagA uuidA uuidB (by decide)).2

/-- C4 counterexample: selecting tag A alone matches one item
(`result_count` 1) and selecting tags A and B matches two
(`result_count` 2), so adding one more identifier to a multi-valued
dimension increased `result_count`, refuting "never increases". -/
theorem c4_counterexample :
    (itemList {} catTags qpTagA).resultCount = 1 ∧
    (itemList {} catTags qpTagAB).resultCount = 2 := by
  refine ⟨by decide, by decide⟩

/-- C5 (confirmed).  Multiple `release_year_range` entries combine with
OR: on the 3-item catalog with years 1998, 2005, 2015, the query
`release_year_range=1995:2000&release_year_range=2010:2016` passes
validation and returns exactly the items with years 1998 and 2015 with
`result_count == 2`. -/
theorem c5_release_year_or_scenario :
    validateItemFilter qpTwoRanges = true ∧
    listEndpoint {} cat3 qpTwoRanges = Except.ok (itemList {} cat3 qpTwoRanges) ∧
    (itemList {} cat3 qpTwoRanges).results.map Item.slug = ["item-1998", "item-2015"] ∧
    (itemList {} cat3 qpTwoRanges).resultCount = 2 := by
  refine ⟨rfl, rfl, rfl, rfl⟩

/-- C6 (confirmed).  `result_count` always reports the pre-limit match
count; a non-positive resolved limit returns all matches; a positive
resolved limit truncates to that many; an absent `limit` parameter
resolves to the default 60. -/
theorem c6_limit_contract (cfg : Config) (cat : Catalog) (qp : QueryParams) :
    (itemList cfg cat qp).resultCount = (matchingItems cfg cat qp).length ∧
    (resolveLimit qp.limit ≤ 0 → (itemList cfg cat qp).results = matchingItems cfg cat qp) ∧
    (0 < resolveLimit qp.limit →
      (itemList cfg cat qp).results =
        (matchingItems cfg cat qp).take (resolveLimit qp.limit).toNat) ∧
    (qp.limit = [] → resolveLimit qp.limit = 60) := by
  refine ⟨rfl, ?_, ?_, ?_⟩
  · intro h
    unfold itemList
    dsimp only
    rw [if_neg (by omega)]
  · intro h
    unfold itemList
    dsimp only
    rw [if_pos h]
  · intro h
    rw [h]
    rfl

/-- C6 witness: `limit=2` on the 3-item unfiltered catalog returns two
results while `result_count` stays 3. -/
theorem c6_witness :
    (itemList {} cat3 qpLimit2).results.length = 2 ∧
    (itemList {} cat3 qpLimit2).resultCount = 3 := by
  have h := c6_limit_contract {} cat3 qpLimit2
  constructor
  · rw [h.2.2.1 (by decide)]
    rfl
  · rw [h.1]
    rfl

/-- C8 (corrected).  Parse failures in the `CharFilter`-method range
filters are non-fatal: an unparseable `release_year_range` or
`price_range` value contributes no clause and prepending it to the
request leaves the result set unchanged; and whenever the typed declared
filters pass form validation the endpoint succeeds.  (Malformed UUID,
number or choice values in the typed declared filters instead fail the
filterset form and surface as HTTP 400 — see the counterexample.) -/
theorem c8_range_parse_failures_nonfatal (cfg : Config) (cat : Catalog)
    (qp : QueryParams) (raw : String) :
    (yearRangeClause raw = none →
      matchingItems cfg cat { qp with releaseYearRange := raw :: qp.releaseYearRange } =
        matchingItems cfg cat qp) ∧
    (priceRangeClause cfg raw = none →
      matchingItems cfg cat { qp with priceRange := raw :: qp.priceRange } =
        matchingItems cfg cat qp) ∧
    (validateItemFilter qp = true →
      listEndpoint cfg cat qp = Except.ok (itemList cfg cat qp)) := by
  refine ⟨?_, ?_, ?_⟩
  · intro h
    unfold matchingItems
    apply List.filter_congr
    intro it _
    unfold matchesItemFilter
    dsimp only
    rw [yearRangePred_cons_none raw qp.releaseYearRange it.releaseYear? h]
  · intro h
    unfold matchingItems
    apply List.filter_congr
    intro it _
    unfold matchesItemFilter
    dsimp only
    rw [pricePred_cons_none cfg raw qp.priceRange it.prices h]
  · intro h
    unfold listEndpoint
    rw [if_pos h]

/-- C8 witness: the unparseable range value `zz` leaves the 3-item
catalog's result set unchanged, and the empty (valid) parameter map
succeeds. -/
theorem c8_witness :
    matchingItems {} cat3 { releaseYearRange := ["zz"] } = matchingItems {} cat3 {} ∧
    listEndpoint {} cat3 {} = Except.ok (itemList {} cat3 {}) := by
  constructor
  · exact (c8_range_parse_failures_nonfatal {} cat3 {} "zz").1 (by decide)
  · exact (c8_range_parse_failures_nonfatal {} cat3 {} "zz").2.2 (by decide)

/-- C8 counterexample: `tag=zzz` is not a UUID; the filterset form fails
validation and the endpoint returns HTTP 400 rather than treating the
malformed value as absent, refuting "the list endpoint never returns an
HTTP error caused by a parse failure". -/
theorem c8_counterexample :
    listEndpoint {} cat3 qpBadTag = Except.error "400 Bad Request" := rfl

/-- C10 (confirmed).  When the `limit` parameter is absent, empty, or
unparseable as an integer, the endpoint silently falls back to the
default limit 60: at most 60 results are returned and `result_count`
still reports the full match count. -/
theorem c10_limit_fallback (cfg : Config) (cat : Catalog) (qp : QueryParams)
    (h : qp.limit = [] ∨ qp.limit.getLast? = some "" ∨
      ∃ s, qp.limit.getLast? = some s ∧ pyParseInt s = none) :
    resolveLimit qp.limit = 60 ∧
    (itemList cfg cat qp).results = (matchingItems cfg cat qp).take 60 ∧
    (itemList cfg cat qp).resultCount = (matchingItems cfg cat qp).length := by
  have h60 : resolveLimit qp.limit = 60 := by
    rcases h with h | h | ⟨s, hs, hp⟩
    · rw [h]
      rfl
    · simp [resolveLimit, h]
    · by_cases he : s = ""
      · simp [resolveLimit, hs, he]
      · simp [resolveLimit, hs, he, hp]
  refine ⟨h60, ?_, rfl⟩
  unfold itemList
  dsimp only
  rw [h60]
  rfl

/-- C10 witness: `limit=abc` on the 3-item catalog falls back to 60 and
reports the full count. -/
theorem c10_witness :
    resolveLimit qpLimitBad.limit = 60 ∧
    (itemList {} cat3 qpLimitBad).resultCount = 3 := by
  have h := c10_limit_fallback {} cat3 qpLimitBad
    (Or.inr (Or.inr ⟨"abc", rfl, by decide⟩))
  refine ⟨h.1, ?_⟩
  rw [h.2.2]
  rfl

/-- C9 (confirmed).  Every reported facet `item_count` in the embedded
option lists (brands, tags, colors, fabrics, features) equals the global
published-item count for that single value — the annotate filters only on
`items__status=PUBLISHED` — so the counts are independent of the current
selection.  The hierarchical category/subcategory and style/substyle
lists use the same published-only `Count` annotate. -/
theorem c9_facet_counts_global (cfg : Config) (cat : Catalog) (sel : SelectedFilters) :
    (∀ o ∈ (buildFiltersPayload cfg cat sel).brands,
      o.itemCount = brandItemCount cat o.slug) ∧
    (∀ o ∈ (buildFiltersPayload cfg cat sel).tags,
      o.itemCount = tagItemCount cat o.id) ∧
    (∀ o ∈ (buildFiltersPayload cfg cat sel).colors,
      o.itemCount = colorItemCount cat o.id) ∧
    (∀ o ∈ (buildFiltersPayload cfg cat sel).fabrics,
      o.itemCount = fabricItemCount cat o.id) ∧
    (∀ o ∈ (buildFiltersPayload cfg cat sel).features,
      o.itemCount = featureItemCount cat o.id) := by
  refine ⟨?_, ?_, ?_, ?_, ?_⟩
  · intro o ho
    have ho' : o ∈ brandOptionsOf cat sel.brand := ho
    unfold brandOptionsOf at ho'
    obtain ⟨bc, hbc, rfl⟩ := List.mem_map.mp ho'
    have hpool : bc ∈ brandPool cat sel.brand := List.take_subset _ _ hbc
    unfold brandPool at hpool
    rw [mem_insertionSortBy] at hpool
    have hann := List.filter_subset' _ hpool
    obtain ⟨b, _, rfl⟩ := List.mem_map.mp hann
    rfl
  · intro o ho
    have ho' : o ∈ tagOptionsOf cat sel.tag := ho
    unfold tagOptionsOf at ho'
    obtain ⟨tc, htc, rfl⟩ := List.mem_map.mp ho'
    have hpool : tc ∈ tagPool cat sel.tag := List.take_subset _ _ htc
    unfold tagPool at hpool
    rw [mem_insertionSortBy] at hpool
    have hann := List.filter_subset' _ hpool
    obtain ⟨t, _, rfl⟩ := List.mem_map.mp hann
    rfl
  · intro o ho
    have ho' : o ∈ colorOptionsOf cat sel.color := ho
    unfold colorOptionsOf at ho'
    obtain ⟨cc, hcc, rfl⟩ := List.mem_map.mp ho'
    have hpool := List.take_subset _ _ hcc
    rw [mem_insertionSortBy] at hpool
    have hann := List.filter_subset' _ hpool
    obtain ⟨c, _, rfl⟩ := List.mem_map.mp hann
    rfl
  · intro o ho
    have ho' : o ∈ fabricOptionsOf cat sel.fabric := ho
    unfold fabricOptionsOf at ho'
    obtain ⟨fc, hfc, rfl⟩ := List.mem_map.mp ho'
    have hpool := List.take_subset _ _ hfc
    rw [mem_insertionSortBy] at hpool
    have hann := List.filter_subset' _ hpool
    obtain ⟨f, _, rfl⟩ := List.mem_map.mp hann
    rfl
  · intro o ho
    have ho' : o ∈ featureOptionsOf cat sel.feature := ho
    unfold featureOptionsOf at ho'
    obtain ⟨fc, hfc, rfl⟩ := List.mem_map.mp ho'
    have hpool := List.take_subset _ _ hfc
    rw [mem_insertionSortBy] at hpool
    have hann := List.filter_subset' _ hpool
    obtain ⟨f, _, rfl⟩ := List.mem_map.mp hann
    rfl

/-- C9 witness: the one-brand catalog's reported brand count equals the
global published count. -/
theorem c9_witness :
    ∃ o ∈ (buildFiltersPayload {} catW9 {}).brands,
      o.itemCount = brandItemCount catW9 o.slug := by
  refine ⟨⟨"brand-w", "Brand W", false, 1, ""⟩, by decide, ?_⟩
  exact (c9_facet_counts_global {} catW9 {}).1 _ (by decide)

/-- C3 (corrected).  A selected value always survives the
`item_count>0` restriction (it is unioned into the pool even at count
0), and it appears in the returned option list whenever the pool fits
inside the per-dimension cap (48 for brands, 60 for tags); but the cap
is a plain slice applied after ordering and selected-but-truncated
values are NOT re-appended, so a selected value ranked beyond the cap
disappears (see the counterexample). -/
theorem c3_selected_option_truncation (cat : Catalog) :
    (∀ selB : List String, ∀ b : Brand, b ∈ cat.brands → selB.contains b.slug = true →
      (b, brandItemCount cat b.slug) ∈ brandPool cat selB ∧
      ((brandPool cat selB).length ≤ 48 →
        b.slug ∈ (brandOptionsOf cat selB).map BrandOption.slug)) ∧
    (∀ selT : List String, ∀ t : Tag, t ∈ cat.tags → selT.contains t.id = true →
      (t, tagItemCount cat t.id) ∈ tagPool cat selT ∧
      ((tagPool cat selT).length ≤ 60 →
        t.id ∈ (tagOptionsOf cat selT).map TagOption.id)) := by
  constructor
  · intro selB b hb hsel
    have hmem : (b, brandItemCount cat b.slug) ∈ brandPool cat selB := by
      unfold brandPool
      rw [mem_insertionSortBy]
      refine List.mem_filter.mpr ⟨List.mem_map.mpr ⟨b, hb, rfl⟩, ?_⟩
      simp only [Bool.or_eq_true]
      right
      simpa using hsel
    refine ⟨hmem, ?_⟩
    intro hlen
    unfold brandOptionsOf
    rw [List.take_of_length_le hlen, List.map_map]
    exact List.mem_map.mpr ⟨(b, brandItemCount cat b.slug), hmem, rfl⟩
  · intro selT t ht hsel
    have hmem : (t, tagItemCount cat t.id) ∈ tagPool cat selT := by
      unfold tagPool
      rw [mem_insertionSortBy]
      refine List.mem_filter.mpr ⟨List.mem_map.mpr ⟨t, ht, rfl⟩, ?_⟩
      simp only [Bool.or_eq_true]
      right
      simpa using hsel
    refine ⟨hmem, ?_⟩
    intro hlen
    unfold tagOptionsOf
    rw [List.take_of_length_le hlen, List.map_map]
    exact List.mem_map.mpr ⟨(t, tagItemCount cat t.id), hmem, rfl⟩

/-- C3 witness: a selected brand with `item_count` 0 still appears in
the option list when the pool is within the cap. -/
theorem c3_witness :
    ((⟨{ slug := "zero" }, 0⟩ : Brand × Nat) ∈ brandPool catBrandZ ["zero"]) ∧
    "zero" ∈ (brandOptionsOf catBrandZ ["zero"]).map BrandOption.slug := by
  have h := (c3_selected_option_truncation catBrandZ).1 ["zero"]
    { slug := "zero" } (by decide) (by decide)
  exact ⟨h.1, h.2 (by decide)⟩

/-- C3 counterexample: with 48 one-item brands plus the selected
zero-count brand `zsel`, the pool has 49 entries, the slice keeps the 48
positive-count brands, and the selected `zsel` is absent from the
returned list, refuting "any selected-but-truncated value is still
appended". -/
theorem c3_counterexample :
    ("zsel" ∈ catBig.brands.map Brand.slug) ∧
    brandItemCount catBig "zsel" = 0 ∧
    ("zsel" ∉ (brandOptionsOf catBig ["zsel"]).map BrandOption.slug) ∧
    (brandOptionsOf catBig ["zsel"]).length = 48 := by
  refine ⟨by decide, by decide, by decide, by decide⟩

theorem pyParseNumberChars_nil : pyParseNumberChars [] = none := rfl

theorem resolvedPriceCurrency_ne_empty (cfg : Config) : resolvedPriceCurrency cfg ≠ "" := by
  unfold resolvedPriceCurrency
  cases hc : cfg.preferredCurrencyCode with
  | none => simp
  | some s =>
    by_cases hs : s = ""
    · simp [hs]
    · simp [hs]

theorem yearRangeSel_props (raw : String) (e : YearRangeSel)
    (h : yearRangeSel raw = some e) :
    e.valueKey = raw ∧ ¬(e.min? = none ∧ e.max? = none) ∧ e.valueKey ≠ "" := by
  unfold yearRangeSel at h
  rcases hp : partitionChar ':' raw.data with ⟨a, f, b⟩
  rw [hp] at h
  dsimp only at h
  cases f with
  | true =>
    have hraw : raw.data = a ++ ':' :: b := partitionChar_true ':' raw.data a b hp
    dsimp only [cond] at h
    by_cases hcond : ((pyParseIntChars a).isNone && (pyParseIntChars b).isNone) = true
    · rw [if_pos hcond] at h
      cases h
    · rw [if_neg hcond] at h
      simp only [Option.some.injEq] at h
      subst h
      refine ⟨?_, ?_, ?_⟩
      · show String.mk (a ++ ':' :: b) = raw
        rw [← hraw]
      · dsimp only
        intro hb
        apply hcond
        simp [hb.1, hb.2]
      · apply string_mk_ne_empty
        simp
  | false =>
    have hfa := partitionChar_false ':' raw.data a b hp
    dsimp only [cond] at h
    by_cases hcond : ((pyParseIntChars raw.data).isNone && (none : Option Int).isNone) = true
    · rw [if_pos hcond] at h
      cases h
    · rw [if_neg hcond] at h
      simp only [Option.some.injEq] at h
      subst h
      have hmin : pyParseIntChars raw.data ≠ none := by
        simpa using hcond
      refine ⟨?_, ?_, ?_⟩
      · show String.mk a = raw
        rw [hfa.1]
      · dsimp only
        intro hb
        exact hmin hb.1
      · show String.mk a ≠ ""
        apply string_mk_ne_empty
        rw [hfa.1]
        intro hnil
        rw [hnil, pyParseIntChars_nil] at hmin
        exact hmin rfl

theorem priceRangeSel_props (cfg : Config) (raw : String) (e : PriceRangeSel)
    (h : priceRangeSel cfg raw = some e) :
    e.currency ≠ "" ∧ ¬(e.min? = none ∧ e.max? = none) ∧ e.valueKey ≠ "" ∧
    (∀ c mn mx, splitChar ':' raw.data = [c, mn, mx] → c ≠ [] → e.valueKey = raw) := by
  unfold priceRangeSel at h
  rcases hp : splitChar ':' raw.data with _ | ⟨a, _ | ⟨b, _ | ⟨c, _ | ⟨d, rest⟩⟩⟩⟩
  · exact absurd hp (splitChar_ne_nil ':' raw.data)
  · rw [hp] at h
    simp [pyParseNumberChars_nil] at h
  · rw [hp] at h
    dsimp only at h
    by_cases hcond : ((pyParseNumberChars b).isNone && (pyParseNumberChars []).isNone) = true
    · rw [if_pos hcond] at h
      cases h
    · rw [if_neg hcond] at h
      simp only [Option.some.injEq] at h
      subst h
      refine ⟨?_, ?_, ?_, ?_⟩
      · dsimp only
        by_cases ha : a.isEmpty = true
        · rw [if_pos ha]
          exact resolvedPriceCurrency_ne_empty cfg
        · rw [if_neg ha]
          apply string_mk_ne_empty
          intro hnil
          rw [hnil] at ha
          exact ha rfl
      · dsimp only
        intro hb
        apply hcond
        simp [hb.1, hb.2, pyParseNumberChars_nil]
      · dsimp only
        apply string_mk_ne_empty
        simp
      · intro c' mn mx heq
        simp at heq
  · rw [hp] at h
    dsimp only at h
    by_cases hcond : ((pyParseNumberChars b).isNone && (pyParseNumberChars c).isNone) = true
    · rw [if_pos hcond] at h
      cases h
    · rw [if_neg hcond] at h
      simp only [Option.some.injEq] at h
      subst h
      refine ⟨?_, ?_, ?_, ?_⟩
      · dsimp only
        by_cases ha : a.isEmpty = true
        · rw [if_pos ha]
          exact resolvedPriceCurrency_ne_empty cfg
        · rw [if_neg ha]
          apply string_mk_ne_empty
          intro hnil
          rw [hnil] at ha
          exact ha rfl
      · dsimp only
        intro hb
        apply hcond
        simp [hb.1, hb.2]
      · dsimp only
        apply string_mk_ne_empty
        simp
      · intro c' mn mx heq hcne
        simp only [List.cons.injEq, and_true] at heq
        obtain ⟨h1, h2, h3⟩ := heq
        subst h1
        subst h2
        subst h3
        have hraw : raw.data = a ++ ':' :: (b ++ ':' :: c) := by
          have hj := joinOn_splitChar ':' raw.data
          rw [hp] at hj
          simpa [joinOn] using hj.symm
        have ha : a.isEmpty = false := by
          cases a with
          | nil => exact absurd rfl hcne
          | cons x xs => rfl
        dsimp only
        rw [ha]
        show String.mk ((String.mk a).data ++ ':' :: (b ++ ':' :: c)) = raw
        rw [← hraw]
  · rw [hp] at h
    simp [pyParseNumberChars_nil] at h

/-- C2 (corrected).  Every accepted `release_year_range` raw string
round-trips byte-for-byte into its chip's `value_key`; an accepted
`price_range` raw string round-trips exactly when it is the full
three-part form with an explicit currency — otherwise the chip's
`value_key` is the rebuilt `currency:min:max` string with the resolved
currency substituted (and the empty max part made explicit), which
differs from the raw string (see the counterexample). -/
theorem c2_value_key_roundtrip (cfg : Config) (cat : Catalog) (qp : QueryParams) :
    (∀ raw ∈ qp.releaseYearRange, ∀ e, yearRangeSel raw = some e →
      e.valueKey = raw ∧
      (⟨"Release year", releaseLabel e, "release_year_range", some e.valueKey⟩ :
        ActiveFilterChip) ∈ buildActiveFilters cat (extractSelected cfg qp)) ∧
    (∀ raw ∈ qp.priceRange, ∀ e, priceRangeSel cfg raw = some e →
      ((∃ c mn mx, splitChar ':' raw.data = [c, mn, mx] ∧ c ≠ []) → e.valueKey = raw) ∧
      (⟨"Price", priceLabel e, "price_range", some e.valueKey⟩ :
        ActiveFilterChip) ∈ buildActiveFilters cat (extractSelected cfg qp)) := by
  constructor
  · intro raw hraw e he
    have props := yearRangeSel_props raw e he
    have h1 : (e.min?.isNone && e.max?.isNone) = false := by
      cases hm : e.min? with
      | some v => simp
      | none =>
        cases hx : e.max? with
        | some v => simp
        | none => exact absurd ⟨hm, hx⟩ props.2.1
    refine ⟨props.1, ?_⟩
    have hmem : e ∈ (extractSelected cfg qp).releaseYearRanges :=
      List.mem_filterMap.mpr ⟨raw, hraw, he⟩
    have hchip : (⟨"Release year", releaseLabel e, "release_year_range", some e.valueKey⟩ :
        ActiveFilterChip) ∈ releaseChipsOf (extractSelected cfg qp).releaseYearRanges := by
      apply List.mem_filterMap.mpr
      refine ⟨e, hmem, ?_⟩
      rw [h1]
      simp [props.2.2]
    unfold buildActiveFilters
    exact List.mem_append.mpr (Or.inl (List.mem_append.mpr (Or.inr hchip)))
  · intro raw hraw e he
    have props := priceRangeSel_props cfg raw e he
    have h1 : (e.min?.isNone && e.max?.isNone) = false := by
      cases hm : e.min? with
      | some v => simp
      | none =>
        cases hx : e.max? with
        | some v => simp
        | none => exact absurd ⟨hm, hx⟩ props.2.1
    refine ⟨?_, ?_⟩
    · rintro ⟨c, mn, mx, hsplit, hcne⟩
      exact props.2.2.2 c mn mx hsplit hcne
    · have hmem : e ∈ (extractSelected cfg qp).priceRanges :=
        List.mem_filterMap.mpr ⟨raw, hraw, he⟩
      have hchip : (⟨"Price", priceLabel e, "price_range", some e.valueKey⟩ :
          ActiveFilterChip) ∈ priceChipsOf (extractSelected cfg qp).priceRanges := by
        apply List.mem_filterMap.mpr
        refine ⟨e, hmem, ?_⟩
        rw [if_neg props.1, h1]
        simp [props.2.2.1]
      unfold buildActiveFilters
      exact List.mem_append.mpr (Or.inr hchip)

/-- C2 witness: the fully-explicit raws `1995:2000` and `USD:100:200`
produce chips whose `value_key` equals the raw string. -/
theorem c2_witness :
    (⟨"Release year", "1995–2000", "release_year_range", some "1995:2000"⟩ :
      ActiveFilterChip) ∈ buildActiveFilters cat3 (extractSelected {} qpC2) ∧
    (⟨"Price",
       priceLabel ⟨"USD", pyParseFloat "100", pyParseFloat "200", "USD:100:200"⟩,
       "price_range", some "USD:100:200"⟩ :
      ActiveFilterChip) ∈ buildActiveFilters cat3 (extractSelected {} qpC2) := by
  have h := c2_value_key_roundtrip {} cat3 qpC2
  constructor
  · exact (h.1 "1995:2000" (by decide) ⟨some 1995, some 2000, "1995:2000"⟩ (by decide)).2
  · exact (h.2 "USD:100:200" (by decide)
      ⟨"USD", pyParseFloat "100", pyParseFloat "200", "USD:100:200"⟩ (by rfl)).2

/-- C2 counterexample: with preferred currency USD, the accepted raw
`:100:200` yields the single kept entry and chip with `value_key`
`USD:100:200`, which is not byte-for-byte equal to the submitted raw
string, refuting the round-trip claim for `price_range`. -/
theorem c2_counterexample :
    (extractSelected cfgUSD qpPriceNoCur).priceRanges.map PriceRangeSel.valueKey =
      ["USD:100:200"] ∧
    (buildActiveFilters cat3 (extractSelected cfgUSD qpPriceNoCur)).map
      ActiveFilterChip.valueKey? = [some "USD:100:200"] ∧
    ":100:200" ≠ "USD:100:200" := by
  refine ⟨by decide, by decide, by decide⟩

theorem mem_currencyCounts (cat : Catalog) (p : String × Nat)
    (hp : p ∈ currencyCounts cat) :
    p.2 = currencyRowCount cat p.1 := by
  unfold currencyCounts at hp
  obtain ⟨c, hc, rfl⟩ := List.mem_map.mp hp
  rfl

theorem currencyCounts_mem_of (cat : Catalog) (c : String)
    (hc : c ∈ (publishedPriceRows cat).map ItemPrice.currency) :
    (c, currencyRowCount cat c) ∈ currencyCounts cat :=
  List.mem_map.mpr ⟨c, (mem_dedupFirst _ _).mpr hc, rfl⟩

/-- C7 (corrected).  The price facet resolves its currency as: the
configured default when at least one published price row exists in it,
reporting that currency's global min/max amounts; otherwise the currency
with the most published price ROWS (`Count("id")` on the grouped
`ItemPrice` queryset) — not the one priced on the most published items —
again reporting that currency's min/max.  The counterexample separates
"most price rows" from "most priced items". -/
theorem c7_preferred_currency_resolution (cfg : Config) (cat : Catalog) (c : String) :
    (cfg.preferredCurrencyCode = some c → c ≠ "" →
      (∃ pr ∈ publishedPriceRows cat, pr.currency = c) →
      priceFacetOf cfg cat = ⟨c, (priceAgg cat c).1, (priceAgg cat c).2⟩) ∧
    (cfg.preferredCurrencyCode = some c → c ≠ "" →
      (∀ pr ∈ publishedPriceRows cat, pr.currency ≠ c) →
      publishedPriceRows cat ≠ [] →
      ∃ w, fallbackCurrency cat = some w ∧
        priceFacetOf cfg cat = ⟨w, (priceAgg cat w).1, (priceAgg cat w).2⟩ ∧
        (∀ c' ∈ (publishedPriceRows cat).map ItemPrice.currency,
          currencyRowCount cat c' ≤ currencyRowCount cat w)) := by
  constructor
  · intro hc hne hrow
    obtain ⟨pr, hpr, hcur⟩ := hrow
    have hfil : pr ∈ (publishedPriceRows cat).filter (fun r => r.currency == c) :=
      List.mem_filter.mpr ⟨hpr, by simp [hcur]⟩
    have hmin : (priceAgg cat c).1 ≠ none := by
      unfold priceAgg
      dsimp only
      rw [Ne, listMinimum_eq_none_iff]
      intro hnil
      rw [List.map_eq_nil_iff] at hnil
      rw [hnil] at hfil
      cases hfil
    have hb : ((priceAgg cat c).1.isNone && (priceAgg cat c).2.isNone) = false := by
      cases hm : (priceAgg cat c).1 with
      | none => exact absurd hm hmin
      | some v => simp
    unfold priceFacetOf
    rw [hc]
    dsimp only
    rw [if_neg hne]
    dsimp only [Option.map]
    rw [hb]
    rfl
  · intro hc hne hnorow hrows
    have hfil : (publishedPriceRows cat).filter (fun r => r.currency == c) = [] := by
      rw [List.filter_eq_nil_iff]
      intro r hr
      simp [hnorow r hr]
    have hagg : priceAgg cat c = (none, none) := by
      unfold priceAgg
      rw [hfil]
      rfl
    obtain ⟨r, hr⟩ := List.exists_mem_of_ne_nil _ hrows
    have hcmem : r.currency ∈ (publishedPriceRows cat).map ItemPrice.currency :=
      List.mem_map.mpr ⟨r, hr, rfl⟩
    have hcounts : currencyCounts cat ≠ [] :=
      List.ne_nil_of_mem (currencyCounts_mem_of cat r.currency hcmem)
    obtain ⟨m, hm⟩ := Option.isSome_iff_exists.mp (firstMaxBy_isSome _ hcounts)
    have hfb : fallbackCurrency cat = some m.1 := by
      unfold fallbackCurrency
      rw [hm]
      rfl
    refine ⟨m.1, hfb, ?_, ?_⟩
    · unfold priceFacetOf
      rw [hc]
      dsimp only
      rw [if_neg hne]
      dsimp only [Option.map]
      rw [hagg]
      dsimp only
      rw [hfb]
      rfl
    · intro c' hc'
      have h1 := firstMaxBy_max _ m hm _ (currencyCounts_mem_of cat c' hc')
      have h2 := mem_currencyCounts cat m (firstMaxBy_mem _ m hm)
      dsimp only at h1
      rw [← h2]
      exact h1

/-- C7 witness: configured `USD` with one published USD price row
resolves the facet to `USD` with USD aggregates. -/
theorem c7_witness :
    priceFacetOf cfgUSD catOnePrice =
      ⟨"USD", (priceAgg catOnePrice "USD").1, (priceAgg catOnePrice "USD").2⟩ :=
  (c7_preferred_currency_resolution cfgUSD catOnePrice "USD").1 rfl (by decide)
    ⟨⟨"USD", 120⟩, by decide, rfl⟩

/-- C7 counterexample: with configured `JPY` absent from the catalog,
USD is priced on two published items and EUR on only one, but EUR has
three price rows and wins the fallback, refuting "the currency with the
most priced published items". -/
theorem c7_counterexample :
    (priceFacetOf cfgJPY catPrices).currency = "EUR" ∧
    pricedItemCount catPrices "USD" = 2 ∧
    pricedItemCount catPrices "EUR" = 1 := by
  refine ⟨by decide, by decide, by decide⟩

end Jiraibrary
